import Mathlib

/-!
Verification of the timeline rendering engine.

The JavaScript source (a React/d3 timeline component) is shallowly embedded
below.  JS floating-point arithmetic on pixel coordinates and years is
modelled by exact rationals (ℚ); JS 32-bit integer hashing is modelled by
Nat arithmetic mod 2^32; fields that may be absent in the JSON records are
modelled by Option; values produced by the JS Number() coercion are modelled
by JSNum (a finite rational or a non-finite marker).  Each definition
mirrors one function or block of the source component; the rescaled d3
scales `zx`/`zy` appear as function parameters `(zx zy : ℚ → ℚ)`.
-/

namespace Timeline

/-! ### BCE/CE helpers (no year 0) -/

/-- `toAstronomical` on integer years: `(y) => (y <= 0 ? y + 1 : y)`. -/
def toAstronomical (y : ℤ) : ℤ := if y ≤ 0 then y + 1 else y

/-- `fromAstronomical`: `(a) => (a <= 0 ? a - 1 : a)`. -/
def fromAstronomical (a : ℤ) : ℤ := if a ≤ 0 then a - 1 else a

/-- The same `toAstronomical` conversion, applied to JS numbers (modelled by ℚ)
wherever the component feeds year values into the d3 scales. -/
def toAstronomicalQ (y : ℚ) : ℚ := if y ≤ 0 then y + 1 else y

/-! ### Render + hover constants -/

def TEXT_BASE_R : ℚ := 7/10

def ZOOM_THRESHOLD : ℚ := 12/5

def DEFAULT_BAR_PX : ℚ := 24

/-- `clamp = (v, lo, hi) => Math.max(lo, Math.min(hi, v))`. -/
def clampJS (v lo hi : ℚ) : ℚ := max lo (min hi v)

/-- `Math.round` (half-up, which is `floor (x + 1/2)`). -/
def jsRound (q : ℚ) : ℤ := ⌊q + 1/2⌋

/-! ### Small utils -/

/-- One step of the FNV-1a loop in `hashString`:
`h ^= charCode; h = Math.imul(h, 16777619)`, on 32-bit values. -/
def hashStep (h : ℕ) (c : Char) : ℕ := ((h ^^^ c.toNat) * 16777619) % 2 ^ 32

/-- `hashString`: FNV-1a over the char codes, starting from 2166136261,
finally divided by 2^32 to land in [0,1). -/
def hashString (s : String) : ℚ :=
  ((s.data.foldl hashStep 2166136261 : ℕ) : ℚ) / 2 ^ 32

/-- Result of the JS `Number(...)` coercion: a finite number or a
non-finite value (NaN / ±Infinity / missing field). -/
inductive JSNum where
  | num (q : ℚ)
  | nan
deriving DecidableEq

/-- `Number.isFinite`. -/
def JSNum.isFinite : JSNum → Bool
  | .num _ => true
  | .nan => false

/-- JS `a || b` on strings (empty string is falsy). -/
def jsOrS (a b : String) : String := if a = "" then b else a

/-- Stands for the JS number-to-string conversion used in template literals
such as the row ids. -/
def ratDisplay (q : ℚ) : String := toString q

/-- `formatYear = (y) => (y < 0 ? abs BCE : y > 0 ? y CE : em-dash)`,
on the numeric year values of the rows. -/
def formatYearQ (y : ℚ) : String :=
  if y < 0 then ratDisplay |y| ++ " BCE"
  else if 0 < y then ratDisplay y ++ " CE"
  else "—"

/-- Color table `SymbolicSystemColorPairs`. -/
def SymbolicSystemColorPairs : List (String × String) :=
  [("Sumerian", "#1D4ED8"), ("Akkadian", "#7C4DFF"),
   ("Egyptian", "#FF3B30"), ("Ancient Egyptian", "#FF3B30")]

/-- Object-key lookup on the color table. -/
def colorPairLookup (p : String) : Option String :=
  (SymbolicSystemColorPairs.find? (fun q => q.1 = p)).map (·.2)

/-- `pickSystemColor(tagsStr)`: split on commas, trim, first tag found in the
color table wins, default "#444". -/
def pickSystemColor (tagsStr : String) : String :=
  if tagsStr = "" then "#444"
  else
    let parts := (tagsStr.splitOn ",").map (·.trim)
    match parts.findSome? colorPairLookup with
    | some c => c
    | none => "#444"

/-! ### Input records (durations.json rows and dataset records) -/

/-- A segment object inside a duration record.  `end` is a Lean keyword, so
the field is named `stop`. -/
structure SegmentRec where
  start : ℚ
  stop : ℚ
  label : Option String
  tag : Option String
  note : Option String
  yRel : Option ℚ
  y : Option ℚ
  hRel : Option ℚ
  height : Option ℚ
  color : Option String
deriving DecidableEq

/-- A duration record from durations.json. -/
structure DurationRec where
  id : String
  name : String
  color : Option String
  segments : Option (List SegmentRec)
  start : Option ℚ
  stop : Option ℚ
  yRel : Option ℚ
  y : Option ℚ
  hRel : Option ℚ
  height : Option ℚ
  expandedName : Option String
  broadLifespan : Option String
  broadNote : Option String
deriving DecidableEq

/-- `d.yRel != null ? d.yRel * innerHeight : d.y != null ? d.y : 0`
(band vertical resolution in the `outlines` and `segments` useMemos). -/
def resolveBandY (d : DurationRec) (innerHeight : ℚ) : ℚ :=
  match d.yRel with
  | some v => v * innerHeight
  | none =>
    match d.y with
    | some v => v
    | none => 0

/-- `d.hRel != null ? d.hRel * innerHeight : d.height != null ? d.height :
DEFAULT_BAR_PX`. -/
def resolveBandH (d : DurationRec) (innerHeight : ℚ) : ℚ :=
  match d.hRel with
  | some v => v * innerHeight
  | none =>
    match d.height with
    | some v => v
    | none => DEFAULT_BAR_PX

/-- A resolved outline row (output of the `outlines` useMemo). -/
structure OutlineRow where
  id : String
  name : String
  color : String
  start : ℚ
  stop : ℚ
  y : ℚ
  h : ℚ
  expandedName : String
  broadLifespan : String
  broadNote : String
deriving DecidableEq

/-- `d3.min(segs, s => s.start)` over a nonempty segment list. -/
def segsMinStart (s0 : SegmentRec) (rest : List SegmentRec) : ℚ :=
  rest.foldl (fun acc s => min acc s.start) s0.start

/-- `d3.max(segs, s => s.end)` over a nonempty segment list. -/
def segsMaxStop (s0 : SegmentRec) (rest : List SegmentRec) : ℚ :=
  rest.foldl (fun acc s => max acc s.stop) s0.stop

/-- One row of the `outlines` useMemo: the filter keeps records with a
nonempty segment array or with both `start` and `end`; `start`/`end` are the
min/max over segments when segmented. -/
def outlineOf (innerHeight : ℚ) (d : DurationRec) : Option OutlineRow :=
  let mk : ℚ → ℚ → OutlineRow := fun s e =>
    { id := d.id
      name := d.name
      color := jsOrS (d.color.getD "") "#999"
      start := s
      stop := e
      y := resolveBandY d innerHeight
      h := resolveBandH d innerHeight
      expandedName := jsOrS (d.expandedName.getD "") (jsOrS d.name "")
      broadLifespan := d.broadLifespan.getD ""
      broadNote := d.broadNote.getD "" }
  match d.segments with
  | some (s0 :: rest) => some (mk (segsMinStart s0 rest) (segsMaxStop s0 rest))
  | some [] => none
  | none =>
    match d.start, d.stop with
    | some s, some e => some (mk s e)
    | _, _ => none

/-- The full `outlines` useMemo. -/
def outlinesOf (innerHeight : ℚ) (ds : List DurationRec) : List OutlineRow :=
  ds.filterMap (outlineOf innerHeight)

/-! ### Segment hover rects (`segments` useMemo of the main component) -/

/-- A segment hit-rect row. -/
structure SegRow where
  id : String
  parentId : String
  parentColor : String
  start : ℚ
  stop : ℚ
  y : ℚ
  h : ℚ
  label : Option String
  tag : Option String
  note : Option String
deriving DecidableEq

/-- Builds the rows for one duration's segments: note that `y` and `h` are
resolved from the parent record `d` only. -/
def segRowsAux (d : DurationRec) (y h : ℚ) (color : String) :
    ℕ → List SegmentRec → List SegRow
  | _, [] => []
  | i, s :: t =>
    { id := d.id ++ "__seg_" ++ toString i
      parentId := d.id
      parentColor := color
      start := s.start
      stop := s.stop
      y := y
      h := h
      label := s.label
      tag := s.tag
      note := s.note } :: segRowsAux d y h color (i + 1) t

/-- The `segments` useMemo, for one duration record (records without a
segment array are skipped). -/
def segRowsOfDuration (innerHeight : ℚ) (d : DurationRec) : List SegRow :=
  match d.segments with
  | none => []
  | some segs =>
    segRowsAux d (resolveBandY d innerHeight) (resolveBandH d innerHeight)
      (jsOrS (d.color.getD "") "#999") 0 segs

/-- The `segments` useMemo over the whole durations list. -/
def segmentsRows (innerHeight : ℚ) (ds : List DurationRec) : List SegRow :=
  ds.flatMap (segRowsOfDuration innerHeight)

/-! ### The older timeline component's `compositeRows` useMemo
(src/components/timeline.jsx): here segment-level `yRel`/`y` and
`hRel`/`height` DO take precedence over the group's. -/

/-- Vertical position of one composite segment in `compositeRows`. -/
def compositeSegY (group : DurationRec) (s : SegmentRec) (i : ℕ) (innerHeight : ℚ) : ℚ :=
  match s.yRel with
  | some v => v * innerHeight
  | none =>
    match s.y with
    | some v => v
    | none =>
      match group.yRel with
      | some v => v * innerHeight
      | none =>
        match group.y with
        | some v => v
        | none => (i : ℚ) * 36

/-- Height of one composite segment in `compositeRows`. -/
def compositeSegH (group : DurationRec) (s : SegmentRec) (i : ℕ) (innerHeight : ℚ) : ℚ :=
  match s.hRel with
  | some v => v * innerHeight
  | none =>
    match s.height with
    | some v => v
    | none =>
      match group.hRel with
      | some v => v * innerHeight
      | none =>
        match group.height with
        | some v => v
        | none => DEFAULT_BAR_PX

/-- A resolved segment of a composite row in the older component. -/
structure CompositeSeg where
  id : String
  start : ℚ
  stop : ℚ
  y : ℚ
  h : ℚ
  color : String
deriving DecidableEq

/-- The segment list of one composite group in `compositeRows`. -/
def compositeSegsAux (group : DurationRec) (innerHeight : ℚ) (baseColor : String) :
    ℕ → List SegmentRec → List CompositeSeg
  | _, [] => []
  | i, s :: t =>
    { id := group.id ++ "__seg_" ++ toString i
      start := s.start
      stop := s.stop
      y := compositeSegY group s i innerHeight
      h := compositeSegH group s i innerHeight
      color := jsOrS (s.color.getD "") baseColor } :: compositeSegsAux group innerHeight baseColor (i + 1) t

/-- `compositeRows` for one group. -/
def compositeRowOf (innerHeight : ℚ) (group : DurationRec) : List CompositeSeg :=
  compositeSegsAux group innerHeight (jsOrS (group.color.getD "") "#9ca3af") 0
    (group.segments.getD [])

/-- A segment with no vertical overrides of its own (all four fields null):
used to express "inherits from the parent". -/
def segNoOverride (s : SegmentRec) : SegmentRec :=
  { s with yRel := none, y := none, hRel := none, height := none }

/-! ### Author / text dataset records and the rows useMemo -/

/-- An author record of a discovered dataset (the raw string fields hold the
JSON values, "" when missing; `datavizBirth`/`datavizDeath` hold the result
of the `Number(...)` coercion; `jsonRepr` stands for `JSON.stringify(a)`). -/
structure AuthorRec where
  author : String
  dob : String
  dod : String
  socioPoliticalTags : String
  symbolicSystemTags : String
  jungianArchetypesTags : String
  category : String
  shortDescription : String
  datavizBirth : JSNum
  datavizDeath : JSNum
  jsonRepr : String
deriving DecidableEq

/-- A text record of a discovered dataset. -/
structure TextRec where
  name : String
  author : String
  approxDate : String
  metaphysicalTags : String
  artsAndSciencesTags : String
  accessLevel : String
  shortDescription : String
  jungianArchetypesTags : String
  neumannStagesTags : String
  originalGeo : String
  originalLanguage : String
  comteanFramework : String
  category : String
  socioPoliticalTags : String
  literaryFormsTags : String
  literaryContentTags : String
  symbolicSystemTags : String
  datavizDate : JSNum
  jsonRepr : String
deriving DecidableEq

/-- `getTextDate(row)`: `Number(row["Dataviz date"])`, NaN when not finite. -/
def getTextDate (t : TextRec) : JSNum :=
  match t.datavizDate with
  | .num q => .num q
  | .nan => .nan

/-- A produced author row. -/
structure AuthorRow where
  id : String
  durationId : String
  name : String
  start : ℚ
  stop : ℚ
  y : ℚ
  color : String
  displayBirth : String
  displayDeath : String
  socioPoliticalTags : String
  symbolicSystemTags : String
  jungianArchetypesTags : String
  category : String
  shortDescription : String
deriving DecidableEq

/-- A produced text row. -/
structure TextRow where
  id : String
  durationId : String
  when : ℚ
  y : ℚ
  color : String
  title : String
  authorName : String
  displayDate : String
  metaphysicalTags : String
  artsAndSciencesTags : String
  accessLevel : String
  shortDescription : String
  jungianArchetypesTags : String
  neumannStagesTags : String
  originalGeographicalLocation : String
  originalLanguage : String
  comteanFramework : String
  category : String
  socioPoliticalTags : String
  literaryFormsTags : String
  literaryContentTags : String
  symbolicSystemTags : String
deriving DecidableEq

/-- The per-dataset `yForKey` closure: hash-based deterministic vertical
offset inside the band's padded extent. -/
def yForKey (durationId : String) (bandY bandH : ℚ) (key : String) : ℚ :=
  let pad := min 6 (max 2 (bandH * (15/100)))
  let r := hashString (durationId ++ "::" ++ jsOrS key "anon")
  bandY + pad + r * max 1 (bandH - 2 * pad)

/-- The author-row construction of the rows useMemo: `none` exactly when the
finite-year guard `!Number.isFinite(birthNum) || !Number.isFinite(deathNum)`
skips the record. -/
def mkAuthorRow (durationId : String) (bandY bandH : ℚ) (a : AuthorRec) : Option AuthorRow :=
  let name := a.author.trim
  let displayBirth := a.dob.trim
  let displayDeath := a.dod.trim
  let socioPoliticalTags := a.socioPoliticalTags.trim
  let symbolicSystemTags := a.symbolicSystemTags.trim
  let jungianArchetypesTags := a.jungianArchetypesTags.trim
  let category := a.category.trim
  let shortDescription := a.shortDescription.trim
  match a.datavizBirth, a.datavizDeath with
  | .num birthNum, .num deathNum =>
    some
      { id := durationId ++ "__author__" ++ jsOrS name (ratDisplay (hashString a.jsonRepr))
        durationId := durationId
        name := name
        start := birthNum
        stop := deathNum
        y := yForKey durationId bandY bandH name
        color := pickSystemColor symbolicSystemTags
        displayBirth := jsOrS displayBirth (formatYearQ birthNum)
        displayDeath := jsOrS displayDeath (formatYearQ deathNum)
        socioPoliticalTags := socioPoliticalTags
        symbolicSystemTags := symbolicSystemTags
        jungianArchetypesTags := jungianArchetypesTags
        category := category
        shortDescription := shortDescription }
  | _, _ => none

/-- The text-row construction of the rows useMemo: `none` exactly when
`!Number.isFinite(when)` skips the record. -/
def mkTextRow (durationId : String) (bandY bandH : ℚ) (t : TextRec) : Option TextRow :=
  let title := t.name.trim
  let authorName := t.author.trim
  let approxDateStr := t.approxDate.trim
  match getTextDate t with
  | .num whenNum =>
    let textKey := jsOrS authorName "anon" ++ "::" ++ title ++ "::" ++ ratDisplay whenNum
    some
      { id := durationId ++ "__text__" ++ jsOrS title (ratDisplay (hashString t.jsonRepr))
               ++ "__" ++ ratDisplay whenNum
        durationId := durationId
        when := whenNum
        y := yForKey durationId bandY bandH textKey
        color := pickSystemColor t.symbolicSystemTags.trim
        title := title
        authorName := authorName
        displayDate := jsOrS approxDateStr (formatYearQ whenNum)
        metaphysicalTags := t.metaphysicalTags.trim
        artsAndSciencesTags := t.artsAndSciencesTags.trim
        accessLevel := t.accessLevel.trim
        shortDescription := t.shortDescription.trim
        jungianArchetypesTags := t.jungianArchetypesTags.trim
        neumannStagesTags := t.neumannStagesTags.trim
        originalGeographicalLocation := t.originalGeo.trim
        originalLanguage := t.originalLanguage.trim
        comteanFramework := t.comteanFramework.trim
        category := t.category.trim
        socioPoliticalTags := t.socioPoliticalTags.trim
        literaryFormsTags := t.literaryFormsTags.trim
        literaryContentTags := t.literaryContentTags.trim
        symbolicSystemTags := t.symbolicSystemTags.trim }
  | .nan => none

/-- One discovered dataset (`useDiscoveredDatasets` registry entry):
`durationId` is the derived `folder + "-composite"`. -/
structure Dataset where
  folder : String
  durationId : String
  authors : List AuthorRec
  texts : List TextRec
deriving DecidableEq

/-- `new Map(outlines.map(o => [o.id, o])).get(i)`: last entry with the key
wins, as for a JS Map built from a list. -/
def lookupOutline (outlines : List OutlineRow) (i : String) : Option OutlineRow :=
  outlines.foldl (fun acc o => if o.id = i then some o else acc) none

/-- Author rows contributed by one dataset: nothing when the band lookup
fails (`if (!band) continue`). -/
def datasetAuthorRows (outlines : List OutlineRow) (ds : Dataset) : List AuthorRow :=
  match lookupOutline outlines ds.durationId with
  | none => []
  | some band => ds.authors.filterMap (mkAuthorRow ds.durationId band.y band.h)

/-- Text rows contributed by one dataset. -/
def datasetTextRows (outlines : List OutlineRow) (ds : Dataset) : List TextRow :=
  match lookupOutline outlines ds.durationId with
  | none => []
  | some band => ds.texts.filterMap (mkTextRow ds.durationId band.y band.h)

/-- The `bandExtent` map: `{min, max}` of the outline with that id. -/
def bandExtent (outlines : List OutlineRow) (i : String) : Option (ℚ × ℚ) :=
  (lookupOutline outlines i).map (fun o => (min o.start o.stop, max o.start o.stop))

/-- Final `authorRows`: per-dataset rows, then the clamp-to-band-extent
filter `r.end >= e.min && r.start <= e.max`. -/
def authorRowsOf (outlines : List OutlineRow) (registry : List Dataset) : List AuthorRow :=
  (registry.flatMap (datasetAuthorRows outlines)).filter (fun r =>
    match bandExtent outlines r.durationId with
    | some e => decide (e.1 ≤ r.stop ∧ r.start ≤ e.2)
    | none => true)

/-- Final `textRows`: per-dataset rows, then the extent filter
`r.when >= e.min && r.when <= e.max`. -/
def textRowsOf (outlines : List OutlineRow) (registry : List Dataset) : List TextRow :=
  (registry.flatMap (datasetTextRows outlines)).filter (fun r =>
    match bandExtent outlines r.durationId with
    | some e => decide (e.1 ≤ r.when ∧ r.when ≤ e.2)
    | none => true)

/-- The finite-year guard on an author record. -/
def finiteAuthor (a : AuthorRec) : Bool :=
  a.datavizBirth.isFinite && a.datavizDeath.isFinite

/-- The finite-date guard on a text record. -/
def finiteText (t : TextRec) : Bool := (getTextDate t).isFinite

/-- Drops the records a dataset would skip through the finite-year guards. -/
def dropNonFinite (ds : Dataset) : Dataset :=
  { ds with authors := ds.authors.filter finiteAuthor, texts := ds.texts.filter finiteText }

/-! ### Tooltip placement (`showTip`, `showSegAnchored`, `showDurationAnchored`)

Each function returns the final `(left, top, below)` of the tooltip box,
given the wrapper rectangle and the tooltip's measured width/height.
-/

/-- `showTip`: center above the cursor if possible, otherwise below; then
clamp horizontally into `[4, wrapWidth - tw - 4]`.  `(clientX, clientY)` are
the coordinates passed in by the caller. -/
def showTipPos (wrapLeft wrapTop wrapW tw th clientX clientY : ℚ) : ℚ × ℚ × Bool :=
  let pad : ℚ := 6
  let xRaw := clientX - wrapLeft - tw / 2
  let yAbove := clientY - wrapTop - th - pad
  let yb : ℚ × Bool := if yAbove < 0 then (clientY - wrapTop + pad, true) else (yAbove, false)
  let maxX := wrapW - tw - 4
  (max 4 (min xRaw maxX), yb.1, yb.2)

/-- `showSegAnchored`'s placement: prefer below the segment, flip above if
the bottom would overflow; clamp horizontally. -/
def showSegAnchoredPos (wrapW wrapH tw th xMid yTop hPix : ℚ) : ℚ × ℚ × Bool :=
  let pad : ℚ := 8
  let xRaw := xMid - tw / 2
  let yBelow := yTop + hPix + pad
  let yb : ℚ × Bool := if wrapH < yBelow + th then (yTop - th - pad, false) else (yBelow, true)
  let maxX := wrapW - tw - 4
  (max 4 (min xRaw maxX), yb.1, yb.2)

/-- `showDurationAnchored`'s placement: identical geometry to the segment
card (prefer below the band, flip above if needed, clamp horizontally). -/
def showDurationAnchoredPos (wrapW wrapH tw th xMid yTop hPix : ℚ) : ℚ × ℚ × Bool :=
  let pad : ℚ := 8
  let xRaw := xMid - tw / 2
  let yBelow := yTop + hPix + pad
  let yb : ℚ × Bool := if wrapH < yBelow + th then (yTop - th - pad, false) else (yBelow, true)
  let maxX := wrapW - tw - 4
  (max 4 (min xRaw maxX), yb.1, yb.2)

/-- Horizontal containment of a tooltip of width `tw` placed at `x` inside a
viewport of width `wrapW`, with the 4px gutter the code clamps to. -/
def horizContained (wrapW tw x : ℚ) : Prop := 4 ≤ x ∧ x + tw ≤ wrapW - 4

/-- `getSegmentAnchorPx`: the rendered segment geometry under the cached
rescaled scales, `null` before the first render. -/
def getSegmentAnchorPx (zx zy : Option (ℚ → ℚ)) (seg : SegRow) :
    Option (ℚ × ℚ × ℚ × ℚ × ℚ) :=
  match zx, zy with
  | some zx, some zy =>
    let x0 := zx (toAstronomicalQ seg.start)
    let x1 := zx (toAstronomicalQ seg.stop)
    let yTop := zy seg.y
    let hPix := zy (seg.y + seg.h) - zy seg.y
    some (min x0 x1, max x0 x1, (min x0 x1 + max x0 x1) / 2, yTop, hPix)
  | _, _ => none

/-- `authorAnchorClient(d)`: the client-coordinate anchor of an author
lifespan line — the line's horizontal midpoint at its vertical position,
offset by the svg rectangle and margins; `null` before the first render. -/
def authorAnchorClient (zx zy : Option (ℚ → ℚ)) (svgLeft svgTop marginLeft marginTop : ℚ)
    (d : AuthorRow) : Option (ℚ × ℚ) :=
  match zx, zy with
  | some zx, some zy =>
    let x0 := zx (toAstronomicalQ d.start)
    let x1 := zx (toAstronomicalQ d.stop)
    let xMid := (min x0 x1 + max x0 x1) / 2
    some (svgLeft + marginLeft + xMid, svgTop + marginTop + zy d.y)
  | _, _ => none

/-- `textAnchorClient(el, d)`: the dot's current center; `cyAttr` is the
circle's current `cy` attribute when the element exists. -/
def textAnchorClient (zx zy : Option (ℚ → ℚ)) (svgLeft svgTop marginLeft marginTop : ℚ)
    (cyAttr : Option ℚ) (d : TextRow) : Option (ℚ × ℚ) :=
  match zx, zy with
  | some zx, some zy =>
    let cx := zx (toAstronomicalQ d.when)
    let cy :=
      match cyAttr with
      | some c => c
      | none => zy d.y
    some (svgLeft + marginLeft + cx, svgTop + marginTop + cy)
  | _, _ => none

/-- The author `mouseenter`/`mousemove` handler's tooltip placement: the
event's client coordinates `evClientX`/`evClientY` are received (as `_ev` in
the source) and the tip is shown at `authorAnchorClient(d)` when that anchor
exists. -/
def authorHoverTipPos (evClientX evClientY : ℚ) (zx zy : Option (ℚ → ℚ))
    (svgLeft svgTop marginLeft marginTop wrapLeft wrapTop wrapW tw th : ℚ)
    (d : AuthorRow) : Option (ℚ × ℚ × Bool) :=
  match authorAnchorClient zx zy svgLeft svgTop marginLeft marginTop d with
  | some a => some (showTipPos wrapLeft wrapTop wrapW tw th a.1 a.2)
  | none => none

/-- The text-dot `mouseenter`/`mousemove` handler's tooltip placement. -/
def textHoverTipPos (evClientX evClientY : ℚ) (zx zy : Option (ℚ → ℚ))
    (svgLeft svgTop marginLeft marginTop wrapLeft wrapTop wrapW tw th : ℚ)
    (cyAttr : Option ℚ) (d : TextRow) : Option (ℚ × ℚ × Bool) :=
  match textAnchorClient zx zy svgLeft svgTop marginLeft marginTop cyAttr d with
  | some a => some (showTipPos wrapLeft wrapTop wrapW tw th a.1 a.2)
  | none => none

/-! ### Collision-avoidance layout (the texts part of `apply`) -/

/-- `laneStepPad = Math.max(1, Math.round(r * 0.15))` with `r = TEXT_BASE_R * k`. -/
def laneStepPadOf (k : ℚ) : ℚ :=
  ((max 1 (jsRound (TEXT_BASE_R * k * (15/100))) : ℤ) : ℚ)

/-- `minDX = 2 * r + laneStepPad`. -/
def minDXof (k : ℚ) : ℚ := 2 * (TEXT_BASE_R * k) + laneStepPadOf k

/-- `minDY = 2 * r + laneStepPad`. -/
def minDYof (k : ℚ) : ℚ := 2 * (TEXT_BASE_R * k) + laneStepPadOf k

/-- `laneStep = 2 * r + laneStepPad`. -/
def laneStepOf (k : ℚ) : ℚ := 2 * (TEXT_BASE_R * k) + laneStepPadOf k

/-- `maxLanes = Math.max(1, Math.floor(bandHeight / laneStep))`. -/
def maxLanesOf (bandHeight laneStep : ℚ) : ℕ :=
  (max 1 ⌊bandHeight / laneStep⌋).toNat

/-- The offset sequence `0, +step, -step, +2·step, -2·step, …` up to
`maxLanes` lanes. -/
def laneOffsets (maxLanes : ℕ) (step : ℚ) : List ℚ :=
  (List.range maxLanes).flatMap fun i =>
    if i = 0 then [0] else [(i : ℚ) * step, -((i : ℚ) * step)]

/-- A text dot being laid out (the `{d, cx, baseCy}` triple of `apply`). -/
structure LayoutItem where
  row : TextRow
  cx : ℚ
  baseCy : ℚ
deriving DecidableEq

/-- A placed dot (`{cx, cy}` pushed into `placed`). -/
structure PlacedDot where
  cx : ℚ
  cy : ℚ
deriving DecidableEq

/-- A mark together with its final placement: `found = false` when every
lane offset collided and the best-effort clamp was used. -/
structure PlacedText where
  row : TextRow
  cx : ℚ
  cy : ℚ
  found : Bool
deriving DecidableEq

/-- Insertion into a cx-sorted list (ascending), keeping earlier items in
front of later equal ones, as the stable JS sort does. -/
def insertByCx (a : LayoutItem) : List LayoutItem → List LayoutItem
  | [] => [a]
  | b :: t => if a.cx ≤ b.cx then a :: b :: t else b :: insertByCx a t

/-- `.sort((a, b) => a.cx - b.cx)`. -/
def sortByCx : List LayoutItem → List LayoutItem
  | [] => []
  | a :: t => insertByCx a (sortByCx t)

/-- The back-to-front collision scan over the already-placed dots (newest
first here, matching the `for (j = placed.length - 1; …)` loop with its
early exit `it.cx - p.cx > minDX`). -/
def scanCollide (cx trialCy dX dY : ℚ) : List PlacedDot → Bool
  | [] => false
  | p :: rest =>
    if dX < cx - p.cx then false
    else if |cx - p.cx| < dX ∧ |trialCy - p.cy| < dY then true
    else scanCollide cx trialCy dX dY rest

/-- The offset loop: first offset whose clamped trial y does not collide. -/
def tryOffsets (placed : List PlacedDot) (cx baseCy loY hiY dX dY : ℚ) :
    List ℚ → Option ℚ
  | [] => none
  | off :: rest =>
    let trialCy := max loY (min hiY (baseCy + off))
    if scanCollide cx trialCy dX dY placed then
      tryOffsets placed cx baseCy loY hiY dX dY rest
    else some trialCy

/-- The main placement loop over the cx-sorted items: on failure the mark is
clamped to the band extent at its base offset (best effort, never throws). -/
def placeTexts (offsets : List ℚ) (loY hiY dX dY : ℚ) :
    List LayoutItem → List PlacedDot → List PlacedText
  | [], _ => []
  | it :: rest, placed =>
    match tryOffsets placed it.cx it.baseCy loY hiY dX dY offsets with
    | some cy =>
      ⟨it.row, it.cx, cy, true⟩ :: placeTexts offsets loY hiY dX dY rest (⟨it.cx, cy⟩ :: placed)
    | none =>
      let cy := max loY (min hiY it.baseCy)
      ⟨it.row, it.cx, cy, false⟩ :: placeTexts offsets loY hiY dX dY rest (⟨it.cx, cy⟩ :: placed)

/-- The per-band collision-avoidance layout of `apply`, for one band and the
text rows grouped into it, under the current rescaled scales and zoom `k`. -/
def layoutBandTexts (band : OutlineRow) (items : List TextRow) (zx zy : ℚ → ℚ) (k : ℚ) :
    List PlacedText :=
  let r := TEXT_BASE_R * k
  let dX := minDXof k
  let dY := minDYof k
  let step := laneStepOf k
  let bandTop := zy band.y
  let bandBottom := zy (band.y + band.h)
  let bandHeight := bandBottom - bandTop
  let sorted := sortByCx (items.map fun d => ⟨d, zx (toAstronomicalQ d.when), zy d.y⟩)
  placeTexts (laneOffsets (maxLanesOf bandHeight step) step)
    (bandTop + r) (bandBottom - r) dX dY sorted []

/-- `textsByBand`: grouping of the text rows by `durationId`, in first-seen
key order as for a JS Map. -/
def textsByBandOf (rows : List TextRow) : List (String × List TextRow) :=
  rows.foldl
    (fun acc d =>
      if acc.any (fun p => p.1 = d.durationId) then
        acc.map (fun p => if p.1 = d.durationId then (p.1, p.2 ++ [d]) else p)
      else acc ++ [(d.durationId, [d])])
    []

/-- The whole texts pass of `apply`: per band, the collision-avoidance
layout; bands whose outline lookup fails are skipped. -/
def applyTextLayout (outlines : List OutlineRow) (rows : List TextRow)
    (zx zy : ℚ → ℚ) (k : ℚ) : List (String × List PlacedText) :=
  (textsByBandOf rows).filterMap fun p =>
    (lookupOutline outlines p.1).map fun band => (p.1, layoutBandTexts band p.2 zx zy k)

/-- Pairwise separation: horizontal distance at least `dX` or vertical
distance at least `dY`. -/
def wellSeparated (dX dY : ℚ) (p q : PlacedText) : Prop :=
  dX ≤ |p.cx - q.cx| ∨ dY ≤ |p.cy - q.cy|

/-! ### Interaction state machine (refs + zoom / click / hover handlers) -/

/-- The mutable interaction refs of the component. -/
structure UIState where
  k : ℚ
  prevZoomedIn : Bool
  zoomDragging : Bool
  activeDurationId : Option String
  hoveredDurationId : Option String
  awaitingCloseClick : Bool
  activeSegId : Option String
  hoveredSegParentId : Option String
deriving DecidableEq

/-- The state after mount: initial transform scale `MIN_ZOOM = 0.9`, all
refs null / false. -/
def initialUIState : UIState :=
  { k := 9/10
    prevZoomedIn := false
    zoomDragging := false
    activeDurationId := none
    hoveredDurationId := none
    awaitingCloseClick := false
    activeSegId := none
    hoveredSegParentId := none }

/-- `clearActiveSegment()` (the ref updates; the d3 attribute and tooltip
side effects are not part of the state). -/
def clearActiveSegmentS (s : UIState) : UIState :=
  { s with activeSegId := none, hoveredSegParentId := none }

/-- `clearActiveDuration()`. -/
def clearActiveDurationS (s : UIState) : UIState :=
  { s with activeDurationId := none, awaitingCloseClick := false }

/-- The svg `click.clearActive` handler: consume the one-shot close flag if
armed; otherwise clear both tracks unless the click target was a segment
hit-rect or an outline rect. -/
def svgClickClearActive (s : UIState) (targetIsSegOrOutline : Bool) : UIState :=
  if s.awaitingCloseClick then clearActiveDurationS { s with awaitingCloseClick := false }
  else if targetIsSegOrOutline then s
  else clearActiveDurationS (clearActiveSegmentS s)

/-- The outline rect click handler (both branches stop propagation, so the
svg handler never sees these clicks).  In detail mode the rect does not
receive pointer events and the handler's zoom guard also returns. -/
def outlineClickStep (s : UIState) (id : String) : UIState :=
  if ZOOM_THRESHOLD ≤ s.k then s
  else if s.awaitingCloseClick then clearActiveDurationS { s with awaitingCloseClick := false }
  else
    { clearActiveSegmentS s with activeDurationId := some id, awaitingCloseClick := true }

/-- The segment hit-rect click handler (toggle), followed by the svg
handler, which this click does reach (no stopPropagation) with a segment
target.  Segments receive pointer events only in detail mode. -/
def segmentClickStep (s : UIState) (segId : String) : UIState :=
  if s.k < ZOOM_THRESHOLD then s
  else
    let s1 :=
      if s.activeSegId = some segId then clearActiveSegmentS s
      else { clearActiveDurationS (clearActiveSegmentS s) with activeSegId := some segId }
    svgClickClearActive s1 true

/-- An author-line or text-dot click: clears the active segment and opens
the detail card (external); stops propagation.  Marks receive pointer
events only in detail mode. -/
def markClickStep (s : UIState) : UIState :=
  if s.k < ZOOM_THRESHOLD then s else clearActiveSegmentS s

/-- A click on empty canvas reaches only the svg handler. -/
def canvasClickStep (s : UIState) : UIState := svgClickClearActive s false

/-- Outline rect `mouseenter` (overview only; ignored while a duration is
active). -/
def outlineEnterStep (s : UIState) (id : String) : UIState :=
  if ZOOM_THRESHOLD ≤ s.k then s
  else if s.activeDurationId.isSome then s
  else { s with hoveredDurationId := some id }

/-- Outline rect `mouseleave`. -/
def outlineLeaveStep (s : UIState) : UIState :=
  if ZOOM_THRESHOLD ≤ s.k then s
  else if s.zoomDragging then s
  else if s.activeDurationId.isSome then s
  else { s with hoveredDurationId := none }

/-- Segment hit-rect `mouseenter` (detail only via pointer events). -/
def segmentEnterStep (s : UIState) (segId parentId : String) : UIState :=
  if s.k < ZOOM_THRESHOLD then s
  else if s.activeSegId = some segId then s
  else { s with hoveredSegParentId := some parentId }

/-- Segment hit-rect `mouseleave`. -/
def segmentLeaveStep (s : UIState) (segId : String) : UIState :=
  if s.k < ZOOM_THRESHOLD then s
  else if s.zoomDragging then s
  else if s.activeSegId = some segId then s
  else { s with hoveredSegParentId := none }

/-- `syncDurationHoverFromPointer`: `pointer = none` when there is no source
event; otherwise `some p` where `p` is the outline id under the pointer (or
`none` for empty canvas).  Returns early in detail mode. -/
def syncDurationHover (s : UIState) (pointer : Option (Option String)) : UIState :=
  match pointer with
  | none => s
  | some p =>
    if ZOOM_THRESHOLD ≤ s.k then s
    else if s.hoveredDurationId = p then s
    else { s with hoveredDurationId := p }

/-- `updateInteractivity(k)`: besides toggling pointer events, clears the
segment state in overview mode and the duration card in detail mode. -/
def updateInteractivityS (s : UIState) : UIState :=
  if s.k < ZOOM_THRESHOLD then clearActiveSegmentS s else clearActiveDurationS s

/-- The zoom handler for one gesture tick at new scale `k2`:
set `kRef`, `updateInteractivity`, re-sync the duration hover, then the
threshold handoff, then remember `prevZoomedIn`. -/
def zoomTickStep (s : UIState) (k2 : ℚ) (pointer : Option (Option String)) : UIState :=
  let s1 := { s with k := k2 }
  let s2 := updateInteractivityS s1
  let s3 := syncDurationHover s2 pointer
  let zoomedIn : Bool := decide (ZOOM_THRESHOLD ≤ k2)
  let s4 :=
    if zoomedIn && !s.prevZoomedIn then
      clearActiveDurationS { s3 with hoveredDurationId := none, awaitingCloseClick := false }
    else if !zoomedIn && s.prevZoomedIn then clearActiveSegmentS s3
    else s3
  { s4 with prevZoomedIn := zoomedIn }

/-- Zoom gesture start. -/
def zoomStartStep (s : UIState) : UIState := { s with zoomDragging := true }

/-- Zoom gesture end: final hover re-sync. -/
def zoomEndStep (s : UIState) (pointer : Option (Option String)) : UIState :=
  syncDurationHover { s with zoomDragging := false } pointer

/-- A re-run of the draw effect (e.g. on resize): replays
`updateInteractivity` at the persisted transform's scale. -/
def remountStep (s : UIState) : UIState := updateInteractivityS s

/-- The pointer / gesture events the component handles. -/
inductive UIEvent where
  | outlineClick (id : String)
  | outlineEnter (id : String)
  | outlineLeave
  | segmentClick (segId : String)
  | segmentEnter (segId parentId : String)
  | segmentLeave (segId : String)
  | markClick
  | canvasClick
  | zoomStart
  | zoomTick (k2 : ℚ) (pointer : Option (Option String))
  | zoomEnd (pointer : Option (Option String))
  | remount
deriving DecidableEq

/-- One step of the interaction state machine. -/
def uiStep (s : UIState) : UIEvent → UIState
  | .outlineClick id => outlineClickStep s id
  | .outlineEnter id => outlineEnterStep s id
  | .outlineLeave => outlineLeaveStep s
  | .segmentClick segId => segmentClickStep s segId
  | .segmentEnter segId parentId => segmentEnterStep s segId parentId
  | .segmentLeave segId => segmentLeaveStep s segId
  | .markClick => markClickStep s
  | .canvasClick => canvasClickStep s
  | .zoomStart => zoomStartStep s
  | .zoomTick k2 pointer => zoomTickStep s k2 pointer
  | .zoomEnd pointer => zoomEndStep s pointer
  | .remount => remountStep s

/-- Running the machine from the mount state. -/
def runUI (evs : List UIEvent) : UIState := evs.foldl uiStep initialUIState

/-- Mode exclusivity: no segment-track id in overview mode; no
duration-track id (nor armed close flag) in detail mode. -/
def modeExclusive (s : UIState) : Prop :=
  (s.k < ZOOM_THRESHOLD → s.activeSegId = none ∧ s.hoveredSegParentId = none) ∧
  (ZOOM_THRESHOLD ≤ s.k →
    s.activeDurationId = none ∧ s.hoveredDurationId = none ∧ s.awaitingCloseClick = false)

/-- The full inductive invariant: mode exclusivity plus consistency of the
`prevZoomedIn` ref with the current scale. -/
def uiInvariant (s : UIState) : Prop :=
  modeExclusive s ∧ s.prevZoomedIn = decide (ZOOM_THRESHOLD ≤ s.k)

/-! ### Concrete sample data used by witnesses and counterexamples -/

/-- A text row with the given title, year and base vertical position (the
other fields play no role in the layout). -/
def mkPlainTextRow (title : String) (whenYear yy : ℚ) : TextRow :=
  { id := "band__text__" ++ title
    durationId := "band"
    when := whenYear
    y := yy
    color := "#444"
    title := title
    authorName := ""
    displayDate := ""
    metaphysicalTags := ""
    artsAndSciencesTags := ""
    accessLevel := ""
    shortDescription := ""
    jungianArchetypesTags := ""
    neumannStagesTags := ""
    originalGeographicalLocation := ""
    originalLanguage := ""
    comteanFramework := ""
    category := ""
    socioPoliticalTags := ""
    literaryFormsTags := ""
    literaryContentTags := ""
    symbolicSystemTags := "" }

/-- A 10px-tall band (too thin for two lanes at `k = 10`). -/
def cexBand : OutlineRow :=
  { id := "band", name := "band", color := "#999", start := 0, stop := 10,
    y := 0, h := 10, expandedName := "band", broadLifespan := "", broadNote := "" }

/-- A 20px-tall band (tall enough for the padded extent at `k = 10`). -/
def cexBand20 : OutlineRow :=
  { id := "band", name := "band", color := "#999", start := 0, stop := 10,
    y := 0, h := 20, expandedName := "band", broadLifespan := "", broadNote := "" }

/-- Twenty instant-marks at the identical year. -/
def rows20 : List TextRow := List.replicate 20 (mkPlainTextRow "t" 5 10)

/-- A concrete author row for the tooltip-anchor counterexample: a long
lifespan line from year 1 to year 101 at vertical position 50. -/
def cexAuthorRow : AuthorRow :=
  { id := "band__author__a", durationId := "band", name := "a",
    start := 1, stop := 101, y := 50, color := "#444",
    displayBirth := "", displayDeath := "", socioPoliticalTags := "",
    symbolicSystemTags := "", jungianArchetypesTags := "", category := "",
    shortDescription := "" }

/-- A duration record whose single segment carries its own `y = 50`
override while the parent resolves to `y = 10`. -/
def cexDur : DurationRec :=
  { id := "D", name := "D", color := none,
    segments := some [{ start := 0, stop := 1, label := none, tag := none, note := none,
                        yRel := none, y := some 50, hRel := none, height := none,
                        color := none }],
    start := none, stop := none, yRel := none, y := some 10, hRel := none,
    height := none, expandedName := none, broadLifespan := none, broadNote := none }

/-- The single segment row the `segments` useMemo produces for `cexDur`. -/
def cexSegRow0 : SegRow :=
  { id := "D__seg_0", parentId := "D", parentColor := "#999", start := 0, stop := 1,
    y := 10, h := 24, label := none, tag := none, note := none }

/-- A segment overriding both vertical fields relatively. -/
def segOv : SegmentRec :=
  { start := 0, stop := 1, label := none, tag := none, note := none,
    yRel := some (1/2), y := some 50, hRel := some (1/5), height := some 7,
    color := none }

/-- A segment overriding both vertical fields absolutely. -/
def segMid : SegmentRec :=
  { start := 0, stop := 1, label := none, tag := none, note := none,
    yRel := none, y := some 50, hRel := none, height := some 7, color := none }

/-- A segment with no vertical fields of its own. -/
def segPlain : SegmentRec :=
  { start := 0, stop := 1, label := none, tag := none, note := none,
    yRel := none, y := none, hRel := none, height := none, color := none }

/-- An outline whose id does not match the dataset below. -/
def cexOutlineX : OutlineRow :=
  { id := "x-composite", name := "X", color := "#999", start := 0, stop := 10,
    y := 0, h := 24, expandedName := "X", broadLifespan := "", broadNote := "" }

/-- A dataset whose derived duration id matches no outline. -/
def cexDatasetY : Dataset :=
  { folder := "y", durationId := "y-composite"
    authors := [{ author := "A", dob := "", dod := "", socioPoliticalTags := "",
                  symbolicSystemTags := "", jungianArchetypesTags := "", category := "",
                  shortDescription := "", datavizBirth := .num 1, datavizDeath := .num 2,
                  jsonRepr := "a" }]
    texts := [{ name := "T", author := "A", approxDate := "", metaphysicalTags := "",
                artsAndSciencesTags := "", accessLevel := "", shortDescription := "",
                jungianArchetypesTags := "", neumannStagesTags := "", originalGeo := "",
                originalLanguage := "", comteanFramework := "", category := "",
                socioPoliticalTags := "", literaryFormsTags := "", literaryContentTags := "",
                symbolicSystemTags := "", datavizDate := .num 1, jsonRepr := "t" }] }

/-! ## Claim theorems -/

/-! ### C6: astronomical-year round trip -/

/-- C6: for every integer year `y ≠ 0`,
`fromAstronomical (toAstronomical y) = y`. -/
theorem astro_round_trip (y : ℤ) (h : y ≠ 0) :
    fromAstronomical (toAstronomical y) = y := by
  unfold toAstronomical fromAstronomical
  rcases lt_trichotomy y 0 with hlt | heq | hgt
  · rw [if_pos hlt.le, if_pos (by omega)]; omega
  · exact absurd heq h
  · rw [if_neg (by omega), if_neg (by omega)]

/-- Witness for C6 at the concrete year -3100. -/
theorem astro_round_trip_witness :
    fromAstronomical (toAstronomical (-3100)) = -3100 :=
  astro_round_trip (-3100) (by decide)

/-! ### C3: tooltip placement.

As stated, full viewport containment fails (the flipped vertical position
can leave the viewport); what does hold is horizontal containment whenever
the viewport is at least 8px wider than the tooltip, together with the
below-with-flip vertical rule. -/

/-- C3 counterexample: a viewport (100×100) at least as large as the tooltip
(50×50), with a segment at the top of the viewport tall enough (60px) that
the below placement overflows: the flipped tooltip top is -58, outside the
viewport. -/
theorem tooltip_containment_cex :
    (50:ℚ) ≤ 100 ∧ (50:ℚ) ≤ 100 ∧
    ¬ (0 ≤ (showSegAnchoredPos 100 100 50 50 50 0 60).2.1 ∧
        (showSegAnchoredPos 100 100 50 50 50 0 60).2.1 + 50 ≤ 100) := by
  refine ⟨by norm_num, by norm_num, ?_⟩
  rw [showSegAnchoredPos]
  norm_num

/-- C3 (amended): the horizontal coordinate of every tooltip is clamped
into `[4, viewportWidth − tooltipWidth − 4]`, which lies inside the
viewport whenever `viewportWidth ≥ tooltipWidth + 8`; geometry-anchored
cards are placed below the element by 8px (and then fit vertically), and
flip to `yTop − th − 8` above it when the below placement would overflow;
pointer-anchored tips are placed above the given point by 6px, flipping to
6px below it when the above placement would be negative.  Full vertical
containment is not guaranteed. -/
theorem tooltip_horizontal_contained_flip_rule
    (wrapLeft wrapTop wrapW wrapH tw th clientX clientY xMid yTop hPix : ℚ)
    (hw : tw + 8 ≤ wrapW) :
    (horizContained wrapW tw (showTipPos wrapLeft wrapTop wrapW tw th clientX clientY).1 ∧
      ((showTipPos wrapLeft wrapTop wrapW tw th clientX clientY).2.2 = false →
        (showTipPos wrapLeft wrapTop wrapW tw th clientX clientY).2.1
            = clientY - wrapTop - th - 6 ∧
          0 ≤ (showTipPos wrapLeft wrapTop wrapW tw th clientX clientY).2.1) ∧
      ((showTipPos wrapLeft wrapTop wrapW tw th clientX clientY).2.2 = true →
        (showTipPos wrapLeft wrapTop wrapW tw th clientX clientY).2.1
            = clientY - wrapTop + 6)) ∧
    (horizContained wrapW tw (showSegAnchoredPos wrapW wrapH tw th xMid yTop hPix).1 ∧
      ((showSegAnchoredPos wrapW wrapH tw th xMid yTop hPix).2.2 = true →
        (showSegAnchoredPos wrapW wrapH tw th xMid yTop hPix).2.1 = yTop + hPix + 8 ∧
          (showSegAnchoredPos wrapW wrapH tw th xMid yTop hPix).2.1 + th ≤ wrapH) ∧
      ((showSegAnchoredPos wrapW wrapH tw th xMid yTop hPix).2.2 = false →
        (showSegAnchoredPos wrapW wrapH tw th xMid yTop hPix).2.1 = yTop - th - 8)) ∧
    (horizContained wrapW tw (showDurationAnchoredPos wrapW wrapH tw th xMid yTop hPix).1 ∧
      ((showDurationAnchoredPos wrapW wrapH tw th xMid yTop hPix).2.2 = true →
        (showDurationAnchoredPos wrapW wrapH tw th xMid yTop hPix).2.1 = yTop + hPix + 8 ∧
          (showDurationAnchoredPos wrapW wrapH tw th xMid yTop hPix).2.1 + th ≤ wrapH) ∧
      ((showDurationAnchoredPos wrapW wrapH tw th xMid yTop hPix).2.2 = false →
        (showDurationAnchoredPos wrapW wrapH tw th xMid yTop hPix).2.1 = yTop - th - 8)) := by
  have hclamp : ∀ xRaw : ℚ, horizContained wrapW tw (max 4 (min xRaw (wrapW - tw - 4))) := by
    intro xRaw
    constructor
    · exact le_max_left _ _
    · have h4 : (4:ℚ) ≤ wrapW - tw - 4 := by linarith
      have : max 4 (min xRaw (wrapW - tw - 4)) ≤ wrapW - tw - 4 :=
        max_le h4 (min_le_right _ _)
      linarith
  refine ⟨⟨?_, ?_, ?_⟩, ⟨?_, ?_, ?_⟩, ⟨?_, ?_, ?_⟩⟩
  · by_cases hy : clientY - wrapTop - th - 6 < 0 <;>
      simpa [showTipPos, hy] using hclamp (clientX - wrapLeft - tw / 2)
  · by_cases hy : clientY - wrapTop - th - 6 < 0 <;>
      simp [showTipPos, hy] <;> linarith
  · by_cases hy : clientY - wrapTop - th - 6 < 0 <;> simp [showTipPos, hy]
  · by_cases hb : wrapH < yTop + hPix + 8 + th <;>
      simpa [showSegAnchoredPos, hb] using hclamp (xMid - tw / 2)
  · by_cases hb : wrapH < yTop + hPix + 8 + th <;> simp [showSegAnchoredPos, hb] <;> linarith
  · by_cases hb : wrapH < yTop + hPix + 8 + th <;> simp [showSegAnchoredPos, hb]
  · by_cases hb : wrapH < yTop + hPix + 8 + th <;>
      simpa [showDurationAnchoredPos, hb] using hclamp (xMid - tw / 2)
  · by_cases hb : wrapH < yTop + hPix + 8 + th <;>
      simp [showDurationAnchoredPos, hb] <;> linarith
  · by_cases hb : wrapH < yTop + hPix + 8 + th <;> simp [showDurationAnchoredPos, hb]

/-- Witness for the amended C3 at a concrete geometry (viewport 100 wide,
tooltip 50 wide). -/
theorem tooltip_horizontal_contained_flip_rule_witness :
    horizContained 100 50 (showTipPos 0 0 100 50 20 30 40).1 ∧
    horizContained 100 50 (showSegAnchoredPos 100 100 50 20 30 5 10).1 := by
  refine ⟨?_, ?_⟩
  · exact (tooltip_horizontal_contained_flip_rule 0 0 100 100 50 20 30 40 30 5 10
      (by norm_num)).1.1
  · exact (tooltip_horizontal_contained_flip_rule 0 0 100 100 50 20 30 40 30 5 10
      (by norm_num)).2.1.1

/-! ### C7: hover tooltips for lifespan lines and text dots.

The claim says these tooltips are anchored at the pointer's cursor position
(the event's client coordinates).  In the source the handlers ignore the
event (`_ev`) and anchor at the mark's geometry instead
(`authorAnchorClient` / `textAnchorClient`). -/

/-- C7 counterexample: hovering the left end of the 1–101 lifespan line
(cursor at client x = 1, on the line), the tooltip is NOT placed as it
would be when anchored at the event's client coordinates — the midpoint
anchor (x = 51) is used instead. -/
theorem hover_tip_cursor_anchored_cex :
    authorHoverTipPos 1 50 (some id) (some id) 0 0 0 0 0 0 1000 10 10 cexAuthorRow
      ≠ some (showTipPos 0 0 1000 10 10 1 50) := by with_unfolding_all decide

/-- C7 (amended): the hover tooltip of a lifespan line or text dot is
independent of the event's client coordinates; it is anchored at the mark's
current geometry (the line's horizontal midpoint at its vertical position;
the dot's current center) and fed through the same `showTip`
clamp-then-flip placement. -/
theorem hover_tip_geometry_anchored
    (e1x e1y e2x e2y : ℚ) (zx zy : Option (ℚ → ℚ))
    (svgLeft svgTop marginLeft marginTop wrapLeft wrapTop wrapW tw th : ℚ)
    (cyAttr : Option ℚ) (dA : AuthorRow) (dT : TextRow) :
    authorHoverTipPos e1x e1y zx zy svgLeft svgTop marginLeft marginTop
        wrapLeft wrapTop wrapW tw th dA
      = authorHoverTipPos e2x e2y zx zy svgLeft svgTop marginLeft marginTop
          wrapLeft wrapTop wrapW tw th dA ∧
    authorHoverTipPos e1x e1y zx zy svgLeft svgTop marginLeft marginTop
        wrapLeft wrapTop wrapW tw th dA
      = (authorAnchorClient zx zy svgLeft svgTop marginLeft marginTop dA).map
          (fun a => showTipPos wrapLeft wrapTop wrapW tw th a.1 a.2) ∧
    textHoverTipPos e1x e1y zx zy svgLeft svgTop marginLeft marginTop
        wrapLeft wrapTop wrapW tw th cyAttr dT
      = textHoverTipPos e2x e2y zx zy svgLeft svgTop marginLeft marginTop
          wrapLeft wrapTop wrapW tw th cyAttr dT ∧
    textHoverTipPos e1x e1y zx zy svgLeft svgTop marginLeft marginTop
        wrapLeft wrapTop wrapW tw th cyAttr dT
      = (textAnchorClient zx zy svgLeft svgTop marginLeft marginTop cyAttr dT).map
          (fun a => showTipPos wrapLeft wrapTop wrapW tw th a.1 a.2) := by
  refine ⟨rfl, ?_, rfl, ?_⟩
  · cases h : authorAnchorClient zx zy svgLeft svgTop marginLeft marginTop dA <;>
      simp [authorHoverTipPos, h]
  · cases h : textAnchorClient zx zy svgLeft svgTop marginLeft marginTop cyAttr dT <;>
      simp [textHoverTipPos, h]

/-! ### C4: one-shot close protocol for duration cards (overview mode) -/

/-- C4: in overview mode, clicking band `a` (with no close-click pending)
opens it and arms the one-shot flag; the next click — on empty canvas, on
`a` again, or on a different band `b` — consumes the flag and clears the
active duration, and in particular does NOT set `b` active. -/
theorem one_shot_close_protocol (s : UIState) (a b : String)
    (hk : s.k < ZOOM_THRESHOLD) (hw : s.awaitingCloseClick = false) :
    (uiStep s (.outlineClick a)).activeDurationId = some a ∧
    (uiStep s (.outlineClick a)).awaitingCloseClick = true ∧
    (uiStep (uiStep s (.outlineClick a)) .canvasClick).activeDurationId = none ∧
    (uiStep (uiStep s (.outlineClick a)) .canvasClick).awaitingCloseClick = false ∧
    (uiStep (uiStep s (.outlineClick a)) (.outlineClick a)).activeDurationId = none ∧
    (uiStep (uiStep s (.outlineClick a)) (.outlineClick b)).activeDurationId = none ∧
    (uiStep (uiStep s (.outlineClick a)) (.outlineClick b)).awaitingCloseClick = false := by
  have hk2 : ¬ ZOOM_THRESHOLD ≤ s.k := not_le.mpr hk
  simp [uiStep, outlineClickStep, canvasClickStep, svgClickClearActive,
    clearActiveDurationS, clearActiveSegmentS, hk2, hw]

/-- Witness for C4 from the mount state with bands "A" and "B". -/
theorem one_shot_close_protocol_witness :
    (uiStep initialUIState (.outlineClick "A")).activeDurationId = some "A" ∧
    (uiStep initialUIState (.outlineClick "A")).awaitingCloseClick = true ∧
    (uiStep (uiStep initialUIState (.outlineClick "A")) .canvasClick).activeDurationId
        = none ∧
    (uiStep (uiStep initialUIState (.outlineClick "A")) .canvasClick).awaitingCloseClick
        = false ∧
    (uiStep (uiStep initialUIState (.outlineClick "A"))
        (.outlineClick "A")).activeDurationId = none ∧
    (uiStep (uiStep initialUIState (.outlineClick "A"))
        (.outlineClick "B")).activeDurationId = none ∧
    (uiStep (uiStep initialUIState (.outlineClick "A"))
        (.outlineClick "B")).awaitingCloseClick = false :=
  one_shot_close_protocol initialUIState "A" "B" (by with_unfolding_all decide) rfl

/-! ### C5: mode exclusivity as a reachable-state invariant -/

/-- The invariant holds at mount. -/
lemma uiInvariant_initial : uiInvariant initialUIState := by
  have hk : initialUIState.k < ZOOM_THRESHOLD := by
    show (9:ℚ)/10 < 12/5
    norm_num
  refine ⟨⟨fun _ => ⟨rfl, rfl⟩, fun hge => absurd hge (not_le.mpr hk)⟩, ?_⟩
  show false = decide (ZOOM_THRESHOLD ≤ initialUIState.k)
  exact (decide_eq_false (not_le.mpr hk)).symm

/-- Every event of the interaction machine preserves the invariant. -/
lemma uiStep_preserves_invariant (s : UIState) (e : UIEvent)
    (h : uiInvariant s) : uiInvariant (uiStep s e) := by
  obtain ⟨⟨hA, hB⟩, hP⟩ := h
  cases e with
  | outlineClick id =>
    simp only [uiStep, outlineClickStep, clearActiveDurationS, clearActiveSegmentS]
    by_cases h1 : ZOOM_THRESHOLD ≤ s.k
    · rw [if_pos h1]
      exact ⟨⟨hA, hB⟩, hP⟩
    · rw [if_neg h1]
      by_cases h2 : s.awaitingCloseClick = true
      · rw [if_pos h2]
        exact ⟨⟨fun hk => hA hk, fun hk => absurd hk h1⟩, hP⟩
      · rw [if_neg h2]
        exact ⟨⟨fun _ => ⟨rfl, rfl⟩, fun hk => absurd hk h1⟩, hP⟩
  | outlineEnter id =>
    simp only [uiStep, outlineEnterStep]
    by_cases h1 : ZOOM_THRESHOLD ≤ s.k
    · rw [if_pos h1]
      exact ⟨⟨hA, hB⟩, hP⟩
    · rw [if_neg h1]
      by_cases h2 : s.activeDurationId.isSome = true
      · rw [if_pos h2]
        exact ⟨⟨hA, hB⟩, hP⟩
      · rw [if_neg h2]
        exact ⟨⟨fun hk => hA hk, fun hk => absurd hk h1⟩, hP⟩
  | outlineLeave =>
    simp only [uiStep, outlineLeaveStep]
    by_cases h1 : ZOOM_THRESHOLD ≤ s.k
    · rw [if_pos h1]
      exact ⟨⟨hA, hB⟩, hP⟩
    · rw [if_neg h1]
      by_cases h2 : s.zoomDragging = true
      · rw [if_pos h2]
        exact ⟨⟨hA, hB⟩, hP⟩
      · rw [if_neg h2]
        by_cases h3 : s.activeDurationId.isSome = true
        · rw [if_pos h3]
          exact ⟨⟨hA, hB⟩, hP⟩
        · rw [if_neg h3]
          exact ⟨⟨fun hk => hA hk, fun hk => absurd hk h1⟩, hP⟩
  | segmentClick segId =>
    simp only [uiStep, segmentClickStep]
    by_cases h1 : s.k < ZOOM_THRESHOLD
    · rw [if_pos h1]
      exact ⟨⟨hA, hB⟩, hP⟩
    · rw [if_neg h1]
      have hk0 : ZOOM_THRESHOLD ≤ s.k := not_lt.mp h1
      have haw : s.awaitingCloseClick = false := (hB hk0).2.2
      by_cases h2 : s.activeSegId = some segId
      · rw [if_pos h2]
        rw [svgClickClearActive, if_neg (by simp [clearActiveSegmentS, haw]), if_pos rfl]
        exact ⟨⟨fun hk => absurd hk (not_lt.mpr hk0),
          fun hk => ⟨(hB hk).1, (hB hk).2.1, (hB hk).2.2⟩⟩, hP⟩
      · rw [if_neg h2]
        rw [svgClickClearActive,
          if_neg (by simp [clearActiveSegmentS, clearActiveDurationS]), if_pos rfl]
        exact ⟨⟨fun hk => absurd hk (not_lt.mpr hk0),
          fun hk => ⟨rfl, (hB hk).2.1, rfl⟩⟩, hP⟩
  | segmentEnter segId parentId =>
    simp only [uiStep, segmentEnterStep]
    by_cases h1 : s.k < ZOOM_THRESHOLD
    · rw [if_pos h1]
      exact ⟨⟨hA, hB⟩, hP⟩
    · rw [if_neg h1]
      by_cases h2 : s.activeSegId = some segId
      · rw [if_pos h2]
        exact ⟨⟨hA, hB⟩, hP⟩
      · rw [if_neg h2]
        exact ⟨⟨fun hk => absurd hk h1, fun hk => hB hk⟩, hP⟩
  | segmentLeave segId =>
    simp only [uiStep, segmentLeaveStep]
    by_cases h1 : s.k < ZOOM_THRESHOLD
    · rw [if_pos h1]
      exact ⟨⟨hA, hB⟩, hP⟩
    · rw [if_neg h1]
      by_cases h2 : s.zoomDragging = true
      · rw [if_pos h2]
        exact ⟨⟨hA, hB⟩, hP⟩
      · rw [if_neg h2]
        by_cases h3 : s.activeSegId = some segId
        · rw [if_pos h3]
          exact ⟨⟨hA, hB⟩, hP⟩
        · rw [if_neg h3]
          exact ⟨⟨fun hk => absurd hk h1, fun hk => hB hk⟩, hP⟩
  | markClick =>
    simp only [uiStep, markClickStep, clearActiveSegmentS]
    by_cases h1 : s.k < ZOOM_THRESHOLD
    · rw [if_pos h1]
      exact ⟨⟨hA, hB⟩, hP⟩
    · rw [if_neg h1]
      exact ⟨⟨fun _ => ⟨rfl, rfl⟩, fun hk => hB hk⟩, hP⟩
  | canvasClick =>
    simp only [uiStep, canvasClickStep, svgClickClearActive, clearActiveSegmentS,
      clearActiveDurationS]
    by_cases h1 : s.awaitingCloseClick = true
    · rw [if_pos h1]
      exact ⟨⟨fun hk => hA hk, fun hk => ⟨rfl, (hB hk).2.1, rfl⟩⟩, hP⟩
    · rw [if_neg h1, if_neg (by simp)]
      exact ⟨⟨fun _ => ⟨rfl, rfl⟩, fun hk => ⟨rfl, (hB hk).2.1, rfl⟩⟩, hP⟩
  | zoomStart =>
    exact ⟨⟨hA, hB⟩, hP⟩
  | zoomTick k2 pointer =>
    simp only [uiStep, zoomTickStep, updateInteractivityS, syncDurationHover]
    by_cases hk2 : k2 < ZOOM_THRESHOLD
    · have hzi : decide (ZOOM_THRESHOLD ≤ k2) = false := decide_eq_false (not_le.mpr hk2)
      rw [if_pos hk2]
      cases hprev : s.prevZoomedIn with
      | false =>
        cases pointer with
        | none =>
          simp [clearActiveSegmentS, clearActiveDurationS, hzi, hprev]
          exact ⟨⟨fun _ => ⟨rfl, rfl⟩, fun hk => absurd hk (not_le.mpr hk2)⟩, hzi.symm⟩
        | some p =>
          by_cases hh : s.hoveredDurationId = p
          · simp [clearActiveSegmentS, clearActiveDurationS, hzi, hprev, not_le.mpr hk2, hh]
            exact ⟨⟨fun _ => ⟨rfl, rfl⟩, fun hk => absurd hk (not_le.mpr hk2)⟩, hzi.symm⟩
          · simp [clearActiveSegmentS, clearActiveDurationS, hzi, hprev, not_le.mpr hk2, hh]
            exact ⟨⟨fun _ => ⟨rfl, rfl⟩, fun hk => absurd hk (not_le.mpr hk2)⟩, hzi.symm⟩
      | true =>
        cases pointer with
        | none =>
          simp [clearActiveSegmentS, clearActiveDurationS, hzi, hprev]
          exact ⟨⟨fun _ => ⟨rfl, rfl⟩, fun hk => absurd hk (not_le.mpr hk2)⟩, hzi.symm⟩
        | some p =>
          by_cases hh : s.hoveredDurationId = p
          · simp [clearActiveSegmentS, clearActiveDurationS, hzi, hprev, not_le.mpr hk2, hh]
            exact ⟨⟨fun _ => ⟨rfl, rfl⟩, fun hk => absurd hk (not_le.mpr hk2)⟩, hzi.symm⟩
          · simp [clearActiveSegmentS, clearActiveDurationS, hzi, hprev, not_le.mpr hk2, hh]
            exact ⟨⟨fun _ => ⟨rfl, rfl⟩, fun hk => absurd hk (not_le.mpr hk2)⟩, hzi.symm⟩
    · have hk2g : ZOOM_THRESHOLD ≤ k2 := not_lt.mp hk2
      have hzi : decide (ZOOM_THRESHOLD ≤ k2) = true := decide_eq_true hk2g
      rw [if_neg hk2]
      cases hprev : s.prevZoomedIn with
      | false =>
        cases pointer with
        | none =>
          simp [clearActiveSegmentS, clearActiveDurationS, hzi, hprev, hk2g]
          exact ⟨⟨fun hk => absurd hk hk2, fun _ => ⟨rfl, rfl, rfl⟩⟩, hzi.symm⟩
        | some p =>
          simp [clearActiveSegmentS, clearActiveDurationS, hzi, hprev, hk2g]
          exact ⟨⟨fun hk => absurd hk hk2, fun _ => ⟨rfl, rfl, rfl⟩⟩, hzi.symm⟩
      | true =>
        have hsk : ZOOM_THRESHOLD ≤ s.k := by
          rw [hprev] at hP
          exact of_decide_eq_true hP.symm
        have hhov : s.hoveredDurationId = none := (hB hsk).2.1
        cases pointer with
        | none =>
          simp [clearActiveSegmentS, clearActiveDurationS, hzi, hprev, hk2g]
          exact ⟨⟨fun hk => absurd hk hk2, fun _ => ⟨rfl, hhov, rfl⟩⟩, hzi.symm⟩
        | some p =>
          simp [clearActiveSegmentS, clearActiveDurationS, hzi, hprev, hk2g]
          exact ⟨⟨fun hk => absurd hk hk2, fun _ => ⟨rfl, hhov, rfl⟩⟩, hzi.symm⟩

  | zoomEnd pointer =>
    simp only [uiStep, zoomEndStep, syncDurationHover]
    cases pointer with
    | none => exact ⟨⟨hA, hB⟩, hP⟩
    | some p =>
      by_cases h1 : ZOOM_THRESHOLD ≤ s.k
      · simp [h1]
        exact ⟨⟨hA, hB⟩, hP⟩
      · by_cases h2 : s.hoveredDurationId = p
        · simp [h1]
          rw [if_pos h2]
          exact ⟨⟨hA, hB⟩, hP⟩
        · simp [h1, h2]
          exact ⟨⟨fun hk => hA hk, fun hk => absurd hk h1⟩, hP⟩
  | remount =>
    simp only [uiStep, remountStep, updateInteractivityS, clearActiveSegmentS,
      clearActiveDurationS]
    by_cases h1 : s.k < ZOOM_THRESHOLD
    · rw [if_pos h1]
      exact ⟨⟨fun _ => ⟨rfl, rfl⟩, fun hk => absurd hk (not_le.mpr h1)⟩, hP⟩
    · rw [if_neg h1]
      exact ⟨⟨fun hk => absurd hk h1, fun hk => ⟨rfl, (hB hk).2.1, rfl⟩⟩, hP⟩

/-- The invariant holds in every reachable state. -/
lemma uiInvariant_run (evs : List UIEvent) : uiInvariant (runUI evs) := by
  have main : ∀ (l : List UIEvent) (s : UIState), uiInvariant s → uiInvariant (l.foldl uiStep s) := by
    intro l
    induction l with
    | nil => exact fun s hs => hs
    | cons e t ih => exact fun s hs => ih (uiStep s e) (uiStep_preserves_invariant s e hs)
  exact main evs initialUIState uiInvariant_initial

/-- C5: mode exclusivity holds in every reachable state of the interaction
machine: in overview mode no segment-track id is set, and in detail mode no
duration-track id is set and the one-shot close flag is clear; the state of
the exited track is cleared in the very event that crosses the threshold. -/
theorem mode_exclusive_invariant (evs : List UIEvent) : modeExclusive (runUI evs) :=
  (uiInvariant_run evs).1

/-- Witness for C5: a concrete scripted session zooming from overview into
detail and back while hovering and clicking. -/
theorem mode_exclusive_invariant_witness :
    modeExclusive (runUI
      [.outlineEnter "A", .outlineClick "A", .zoomStart,
       .zoomTick 3 (some (some "A")), .segmentEnter "s" "A", .segmentClick "s",
       .zoomTick 1 none, .zoomEnd none]) :=
  mode_exclusive_invariant
    [.outlineEnter "A", .outlineClick "A", .zoomStart,
     .zoomTick 3 (some (some "A")), .segmentEnter "s" "A", .segmentClick "s",
     .zoomTick 1 none, .zoomEnd none]

/-! ### C9: non-finite year fields are silently dropped -/

/-- `filterMap` ignores elements on which the function yields `none`. -/
lemma filterMap_filter_eq {α β : Type} (f : α → Option β) (p : α → Bool)
    (h : ∀ a, p a = false → f a = none) :
    ∀ l : List α, (l.filter p).filterMap f = l.filterMap f := by
  intro l
  induction l with
  | nil => rfl
  | cons a t ih =>
    cases hp : p a
    · rw [List.filter_cons_of_neg (by simp [hp]), List.filterMap_cons, h a hp, ih]
    · rw [List.filter_cons_of_pos (by simp [hp]), List.filterMap_cons, List.filterMap_cons, ih]

/-- An author record failing the finite-year guard produces no row. -/
lemma mkAuthorRow_eq_none (durationId : String) (bandY bandH : ℚ) (a : AuthorRec)
    (h : finiteAuthor a = false) : mkAuthorRow durationId bandY bandH a = none := by
  unfold finiteAuthor at h
  cases hb : a.datavizBirth <;> cases hd : a.datavizDeath <;>
    simp_all [mkAuthorRow, JSNum.isFinite]

/-- A text record failing the finite-date guard produces no row. -/
lemma mkTextRow_eq_none (durationId : String) (bandY bandH : ℚ) (t : TextRec)
    (h : finiteText t = false) : mkTextRow durationId bandY bandH t = none := by
  unfold finiteText getTextDate at h
  cases ht : t.datavizDate <;> simp_all [mkTextRow, getTextDate, JSNum.isFinite]

/-- Dropping non-finite authors leaves a dataset's author rows unchanged. -/
lemma datasetAuthorRows_dropNonFinite (outlines : List OutlineRow) (ds : Dataset) :
    datasetAuthorRows outlines (dropNonFinite ds) = datasetAuthorRows outlines ds := by
  unfold datasetAuthorRows dropNonFinite
  cases h : lookupOutline outlines ds.durationId with
  | none => simp [h]
  | some band =>
    simp only [h]
    exact filterMap_filter_eq _ _ (fun a ha => mkAuthorRow_eq_none _ _ _ a ha) _

/-- Dropping non-finite texts leaves a dataset's text rows unchanged. -/
lemma datasetTextRows_dropNonFinite (outlines : List OutlineRow) (ds : Dataset) :
    datasetTextRows outlines (dropNonFinite ds) = datasetTextRows outlines ds := by
  unfold datasetTextRows dropNonFinite
  cases h : lookupOutline outlines ds.durationId with
  | none => simp [h]
  | some band =>
    simp only [h]
    exact filterMap_filter_eq _ _ (fun t ht => mkTextRow_eq_none _ _ _ t ht) _

/-- C9: records whose `Dataviz_birth` / `Dataviz_death` (authors) or
`"Dataviz date"` (texts) is not a finite number contribute no row at all:
removing them from the input registry leaves `authorRows` and `textRows`
unchanged, and no error is raised (the construction is total). -/
theorem nonfinite_records_excluded (outlines : List OutlineRow) (registry : List Dataset) :
    authorRowsOf outlines (registry.map dropNonFinite) = authorRowsOf outlines registry ∧
    textRowsOf outlines (registry.map dropNonFinite) = textRowsOf outlines registry := by
  constructor
  · unfold authorRowsOf
    congr 1
    induction registry with
    | nil => rfl
    | cons ds t ih =>
      simp only [List.map_cons, List.flatMap_cons, ih, datasetAuthorRows_dropNonFinite]
  · unfold textRowsOf
    congr 1
    induction registry with
    | nil => rfl
    | cons ds t ih =>
      simp only [List.map_cons, List.flatMap_cons, ih, datasetTextRows_dropNonFinite]

/-! ### C10: datasets whose derived duration id matches no outline -/

/-- Generalized fold characterization of the JS-Map lookup. -/
lemma lookupOutline_aux (i : String) (o : OutlineRow) :
    ∀ (l : List OutlineRow) (acc : Option OutlineRow),
      l.foldl (fun acc o => if o.id = i then some o else acc) acc = some o →
      acc = some o ∨ (o ∈ l ∧ o.id = i) := by
  intro l
  induction l with
  | nil => exact fun acc h => Or.inl h
  | cons hd tl ih =>
    intro acc h
    rcases ih _ h with hacc | ⟨hmem, hid⟩
    · have hacc2 : (if hd.id = i then some hd else acc) = some o := hacc
      by_cases hq : hd.id = i
      · rw [if_pos hq] at hacc2
        obtain rfl := Option.some.inj hacc2
        exact Or.inr ⟨List.mem_cons_self _ _, hq⟩
      · rw [if_neg hq] at hacc2
        exact Or.inl hacc2
    · exact Or.inr ⟨List.mem_cons_of_mem _ hmem, hid⟩

/-- A successful outline lookup returns an outline of the list carrying the
looked-up id. -/
lemma lookupOutline_some (outlines : List OutlineRow) (i : String) (o : OutlineRow)
    (h : lookupOutline outlines i = some o) : o ∈ outlines ∧ o.id = i := by
  rcases lookupOutline_aux i o outlines none h with h0 | h1
  · cases h0
  · exact h1

/-- Every produced author row carries the duration id of its dataset. -/
lemma mkAuthorRow_durationId (did : String) (bandY bandH : ℚ) (a : AuthorRec)
    (r : AuthorRow) (h : mkAuthorRow did bandY bandH a = some r) : r.durationId = did := by
  cases hb : a.datavizBirth with
  | nan => simp [mkAuthorRow, hb] at h
  | num bq =>
    cases hd : a.datavizDeath with
    | nan => simp [mkAuthorRow, hb, hd] at h
    | num dq =>
      simp only [mkAuthorRow, hb, hd, Option.some.injEq] at h
      subst h
      rfl

/-- Every produced text row carries the duration id of its dataset. -/
lemma mkTextRow_durationId (did : String) (bandY bandH : ℚ) (t : TextRec)
    (r : TextRow) (h : mkTextRow did bandY bandH t = some r) : r.durationId = did := by
  cases ht : t.datavizDate with
  | nan => simp [mkTextRow, getTextDate, ht] at h
  | num q =>
    simp only [mkTextRow, getTextDate, ht, Option.some.injEq] at h
    subst h
    rfl

/-- Every row of `authorRows` is owned by an outline that exists. -/
lemma mem_authorRowsOf (outlines : List OutlineRow) (registry : List Dataset)
    (r : AuthorRow) (h : r ∈ authorRowsOf outlines registry) :
    ∃ o ∈ outlines, o.id = r.durationId := by
  unfold authorRowsOf at h
  have h1 := (List.mem_filter.mp h).1
  rcases List.mem_flatMap.mp h1 with ⟨ds, hds, hr⟩
  unfold datasetAuthorRows at hr
  cases hb : lookupOutline outlines ds.durationId with
  | none => rw [hb] at hr; cases hr
  | some band =>
    rw [hb] at hr
    rcases List.mem_filterMap.mp hr with ⟨a, _, ha⟩
    have hdid := mkAuthorRow_durationId _ _ _ _ _ ha
    obtain ⟨hmem, hid⟩ := lookupOutline_some outlines ds.durationId band hb
    exact ⟨band, hmem, by rw [hid, hdid]⟩

/-- Every row of `textRows` is owned by an outline that exists. -/
lemma mem_textRowsOf (outlines : List OutlineRow) (registry : List Dataset)
    (r : TextRow) (h : r ∈ textRowsOf outlines registry) :
    ∃ o ∈ outlines, o.id = r.durationId := by
  unfold textRowsOf at h
  have h1 := (List.mem_filter.mp h).1
  rcases List.mem_flatMap.mp h1 with ⟨ds, hds, hr⟩
  unfold datasetTextRows at hr
  cases hb : lookupOutline outlines ds.durationId with
  | none => rw [hb] at hr; cases hr
  | some band =>
    rw [hb] at hr
    rcases List.mem_filterMap.mp hr with ⟨t, _, ht⟩
    have hdid := mkTextRow_durationId _ _ _ _ _ ht
    obtain ⟨hmem, hid⟩ := lookupOutline_some outlines ds.durationId band hb
    exact ⟨band, hmem, by rw [hid, hdid]⟩

/-- C10: if a duration id (such as a folder's derived `folder + "-composite"`)
equals no id of the resolved outlines, then no author row and no text row
with that duration id is ever produced — the failed band lookup silently
skips the whole dataset. -/
theorem unmatched_dataset_excluded (outlines : List OutlineRow) (registry : List Dataset)
    (dId : String) (h : outlines.all (fun o => o.id != dId) = true) :
    (authorRowsOf outlines registry).all (fun r => r.durationId != dId) = true ∧
    (textRowsOf outlines registry).all (fun r => r.durationId != dId) = true := by
  have h2 : ∀ o ∈ outlines, o.id ≠ dId := by
    intro o ho
    simpa using List.all_eq_true.mp h o ho
  constructor
  · apply List.all_eq_true.mpr
    intro r hr
    rcases mem_authorRowsOf outlines registry r hr with ⟨o, ho, hid⟩
    simpa using fun hEq => h2 o ho (by rw [hid, hEq])
  · apply List.all_eq_true.mpr
    intro r hr
    rcases mem_textRowsOf outlines registry r hr with ⟨o, ho, hid⟩
    simpa using fun hEq => h2 o ho (by rw [hid, hEq])

/-- Witness for C10: a dataset folder "y" whose derived id "y-composite"
matches no outline id. -/
theorem unmatched_dataset_excluded_witness :
    (authorRowsOf [cexOutlineX] [cexDatasetY]).all
        (fun r => r.durationId != "y-composite") = true ∧
    (textRowsOf [cexOutlineX] [cexDatasetY]).all
        (fun r => r.durationId != "y-composite") = true :=
  unmatched_dataset_excluded [cexOutlineX] [cexDatasetY] "y-composite" (by decide)

/-! ### C8: segment vertical geometry and inheritance.

The claim says the resolved vertical geometry uses the segment's own
`y`/`yRel` and `h`/`hRel` when present.  That is true in the older
component's `compositeRows` useMemo, but in the main component's `segments`
useMemo the segment's own fields are ignored: every segment row uses the
parent band's resolved `y`/`h`. -/

/-- Every row built by `segRowsAux` carries the parent's `y` and `h`. -/
lemma segRowsAux_y_h (d : DurationRec) (y h : ℚ) (c : String) :
    ∀ (segs : List SegmentRec) (i : ℕ) (row : SegRow),
      row ∈ segRowsAux d y h c i segs → row.y = y ∧ row.h = h := by
  intro segs
  induction segs with
  | nil => intro i row hr; cases hr
  | cons s t ih =>
    intro i row hr
    rcases List.mem_cons.mp hr with rfl | hmem
    · exact ⟨rfl, rfl⟩
    · exact ih (i + 1) row hmem

/-- C8 counterexample: `cexDur`'s only segment carries its own `y = 50`,
yet the main component's `segments` useMemo resolves the row at the
parent's `y = 10`. -/
theorem segment_override_ignored_cex :
    ((segRowsOfDuration 100 cexDur).map SegRow.y ≠ [50]) ∧
    ((segRowsOfDuration 100 cexDur).map SegRow.y = [10]) := by
  with_unfolding_all decide

/-- C8 (amended): in the older component's `compositeRows`, a segment's own
`yRel`/`y` (resp. `hRel`/`height`) take precedence and the parent group's
fields (then the index/default fallback) are used only when the segment has
none — inheriting exactly as a segment with no overrides; in the main
component's `segments` useMemo, every segment row gets the parent band's
resolved `y` and `h`, ignoring any segment-level overrides. -/
theorem segment_geometry_inheritance (d : DurationRec) (H : ℚ) (g : DurationRec)
    (s : SegmentRec) (i : ℕ) :
    (∀ row ∈ segRowsOfDuration H d, row.y = resolveBandY d H ∧ row.h = resolveBandH d H) ∧
    (∀ vy, s.yRel = some vy → compositeSegY g s i H = vy * H) ∧
    (s.yRel = none → ∀ vy, s.y = some vy → compositeSegY g s i H = vy) ∧
    (s.yRel = none → s.y = none →
      compositeSegY g s i H = compositeSegY g (segNoOverride s) i H) ∧
    (∀ vh, s.hRel = some vh → compositeSegH g s i H = vh * H) ∧
    (s.hRel = none → ∀ vh, s.height = some vh → compositeSegH g s i H = vh) ∧
    (s.hRel = none → s.height = none →
      compositeSegH g s i H = compositeSegH g (segNoOverride s) i H) := by
  refine ⟨?_, ?_, ?_, ?_, ?_, ?_, ?_⟩
  · intro row hr
    unfold segRowsOfDuration at hr
    cases hseg : d.segments with
    | none => rw [hseg] at hr; cases hr
    | some segs =>
      rw [hseg] at hr
      exact segRowsAux_y_h d _ _ _ segs 0 row hr
  · intro vy hvy
    simp [compositeSegY, hvy]
  · intro h0 vy hvy
    simp [compositeSegY, h0, hvy]
  · intro h0 h1
    simp [compositeSegY, segNoOverride, h0, h1]
  · intro vh hvh
    simp [compositeSegH, hvh]
  · intro h0 vh hvh
    simp [compositeSegH, h0, hvh]
  · intro h0 h1
    simp [compositeSegH, segNoOverride, h0, h1]

/-- Witness for the amended C8 at concrete segments: a relative override, an
absolute override, and a no-override segment, plus the concrete parent-only
row of `cexDur`. -/
theorem segment_geometry_inheritance_witness :
    (cexSegRow0.y = resolveBandY cexDur 100 ∧ cexSegRow0.h = resolveBandH cexDur 100) ∧
    compositeSegY cexDur segOv 0 100 = (1/2) * 100 ∧
    compositeSegY cexDur segMid 0 100 = 50 ∧
    compositeSegY cexDur segPlain 0 100 = compositeSegY cexDur (segNoOverride segPlain) 0 100 ∧
    compositeSegH cexDur segOv 0 100 = (1/5) * 100 ∧
    compositeSegH cexDur segMid 0 100 = 7 ∧
    compositeSegH cexDur segPlain 0 100 = compositeSegH cexDur (segNoOverride segPlain) 0 100 :=
  ⟨(segment_geometry_inheritance cexDur 100 cexDur segOv 0).1 cexSegRow0
      (by with_unfolding_all decide),
   (segment_geometry_inheritance cexDur 100 cexDur segOv 0).2.1 (1/2) rfl,
   (segment_geometry_inheritance cexDur 100 cexDur segMid 0).2.2.1 rfl 50 rfl,
   (segment_geometry_inheritance cexDur 100 cexDur segPlain 0).2.2.2.1 rfl rfl,
   (segment_geometry_inheritance cexDur 100 cexDur segOv 0).2.2.2.2.1 (1/5) rfl,
   (segment_geometry_inheritance cexDur 100 cexDur segMid 0).2.2.2.2.2.1 rfl 7 rfl,
   (segment_geometry_inheritance cexDur 100 cexDur segPlain 0).2.2.2.2.2.2 rfl rfl⟩

/-! ### C1 / C2: the collision-avoidance layout -/

/-- Membership through `insertByCx`. -/
lemma mem_insertByCx (a : LayoutItem) :
    ∀ (l : List LayoutItem) (x : LayoutItem), x ∈ insertByCx a l → x = a ∨ x ∈ l := by
  intro l
  induction l with
  | nil =>
    intro x hx
    rcases List.mem_singleton.mp hx with rfl
    exact Or.inl rfl
  | cons b t ih =>
    intro x hx
    unfold insertByCx at hx
    by_cases hc : a.cx ≤ b.cx
    · rw [if_pos hc] at hx
      rcases List.mem_cons.mp hx with rfl | hx2
      · exact Or.inl rfl
      · exact Or.inr hx2
    · rw [if_neg hc] at hx
      rcases List.mem_cons.mp hx with rfl | hx2
      · exact Or.inr (List.mem_cons_self _ _)
      · rcases ih x hx2 with h | h
        · exact Or.inl h
        · exact Or.inr (List.mem_cons_of_mem _ h)

/-- `insertByCx` preserves cx-sortedness. -/
lemma sorted_insertByCx (a : LayoutItem) :
    ∀ l : List LayoutItem, List.Pairwise (fun x y => x.cx ≤ y.cx) l →
      List.Pairwise (fun x y => x.cx ≤ y.cx) (insertByCx a l) := by
  intro l
  induction l with
  | nil => intro _; exact List.pairwise_singleton _ _
  | cons b t ih =>
    intro hp
    obtain ⟨hb, ht⟩ := List.pairwise_cons.mp hp
    unfold insertByCx
    by_cases hc : a.cx ≤ b.cx
    · rw [if_pos hc]
      refine List.pairwise_cons.mpr ⟨?_, hp⟩
      intro x hx
      rcases List.mem_cons.mp hx with rfl | hx2
      · exact hc
      · exact le_trans hc (hb x hx2)
    · rw [if_neg hc]
      refine List.pairwise_cons.mpr ⟨?_, ih ht⟩
      intro x hx
      rcases mem_insertByCx a t x hx with rfl | hx2
      · exact le_of_not_le hc
      · exact hb x hx2

/-- The sort of the layout loop is cx-sorted. -/
lemma sorted_sortByCx :
    ∀ l : List LayoutItem, List.Pairwise (fun x y => x.cx ≤ y.cx) (sortByCx l) := by
  intro l
  induction l with
  | nil => exact List.Pairwise.nil
  | cons a t ih => exact sorted_insertByCx a (sortByCx t) ih

lemma length_insertByCx (a : LayoutItem) :
    ∀ l : List LayoutItem, (insertByCx a l).length = l.length + 1 := by
  intro l
  induction l with
  | nil => rfl
  | cons b t ih =>
    unfold insertByCx
    by_cases hc : a.cx ≤ b.cx
    · rw [if_pos hc]; rfl
    · rw [if_neg hc]
      simp [ih]

lemma length_sortByCx : ∀ l : List LayoutItem, (sortByCx l).length = l.length := by
  intro l
  induction l with
  | nil => rfl
  | cons a t ih =>
    unfold sortByCx
    rw [length_insertByCx, ih, List.length_cons]

/-- Soundness of the back-to-front collision scan: when it reports no
collision against a cx-nonincreasing placed list, every placed dot is
separated from the trial position. -/
lemma scanCollide_false_sep (cx ty dX dY : ℚ) :
    ∀ placed : List PlacedDot,
      List.Pairwise (fun p q => q.cx ≤ p.cx) placed →
      scanCollide cx ty dX dY placed = false →
      ∀ p ∈ placed, dX ≤ |cx - p.cx| ∨ dY ≤ |ty - p.cy| := by
  intro placed
  induction placed with
  | nil => intro _ _ p hp; cases hp
  | cons q rest ih =>
    intro hmono hscan p hp
    obtain ⟨hq, hrest⟩ := List.pairwise_cons.mp hmono
    unfold scanCollide at hscan
    by_cases h1 : dX < cx - q.cx
    · rcases List.mem_cons.mp hp with rfl | hp2
      · exact Or.inl (le_of_lt (lt_of_lt_of_le h1 (le_abs_self _)))
      · have hle : p.cx ≤ q.cx := hq p hp2
        have h2 : dX < cx - p.cx := lt_of_lt_of_le h1 (by linarith)
        exact Or.inl (le_of_lt (lt_of_lt_of_le h2 (le_abs_self _)))
    · rw [if_neg h1] at hscan
      by_cases h2 : |cx - q.cx| < dX ∧ |ty - q.cy| < dY
      · rw [if_pos h2] at hscan; cases hscan
      · rw [if_neg h2] at hscan
        rcases List.mem_cons.mp hp with rfl | hp2
        · rcases not_and_or.mp h2 with h3 | h3
          · exact Or.inl (not_lt.mp h3)
          · exact Or.inr (not_lt.mp h3)
        · exact ih hrest hscan p hp2

/-- A successful offset search scans clean against the placed dots. -/
lemma tryOffsets_some_scanFalse (placed : List PlacedDot) (cx baseCy loY hiY dX dY cy : ℚ) :
    ∀ offs : List ℚ, tryOffsets placed cx baseCy loY hiY dX dY offs = some cy →
      scanCollide cx cy dX dY placed = false := by
  intro offs
  induction offs with
  | nil => intro h; cases h
  | cons off rest ih =>
    intro h
    unfold tryOffsets at h
    by_cases hs : scanCollide cx (max loY (min hiY (baseCy + off))) dX dY placed = true
    · rw [if_pos hs] at h
      exact ih h
    · rw [if_neg hs] at h
      obtain rfl := Option.some.inj h
      exact Bool.eq_false_iff.mpr hs

/-- A successful offset search yields a clamped position. -/
lemma tryOffsets_some_shape (placed : List PlacedDot) (cx baseCy loY hiY dX dY cy : ℚ) :
    ∀ offs : List ℚ, tryOffsets placed cx baseCy loY hiY dX dY offs = some cy →
      ∃ v, cy = max loY (min hiY v) := by
  intro offs
  induction offs with
  | nil => intro h; cases h
  | cons off rest ih =>
    intro h
    unfold tryOffsets at h
    by_cases hs : scanCollide cx (max loY (min hiY (baseCy + off))) dX dY placed = true
    · rw [if_pos hs] at h
      exact ih h
    · rw [if_neg hs] at h
      obtain rfl := Option.some.inj h
      exact ⟨baseCy + off, rfl⟩

/-- The placement loop assigns exactly one position per mark. -/
lemma placeTexts_length (offsets : List ℚ) (loY hiY dX dY : ℚ) :
    ∀ (toGo : List LayoutItem) (placed : List PlacedDot),
      (placeTexts offsets loY hiY dX dY toGo placed).length = toGo.length := by
  intro toGo
  induction toGo with
  | nil => intro placed; rfl
  | cons it rest ih =>
    intro placed
    unfold placeTexts
    cases htry : tryOffsets placed it.cx it.baseCy loY hiY dX dY offsets with
    | some cy => simp [ih]
    | none => simp [ih]

/-- Every assigned position is a clamp into `[loY, hiY]` of some value. -/
lemma placeTexts_cy_shape (offsets : List ℚ) (loY hiY dX dY : ℚ) :
    ∀ (toGo : List LayoutItem) (placed : List PlacedDot) (e : PlacedText),
      e ∈ placeTexts offsets loY hiY dX dY toGo placed →
      ∃ v, e.cy = max loY (min hiY v) := by
  intro toGo
  induction toGo with
  | nil => intro placed e he; cases he
  | cons it rest ih =>
    intro placed e he
    unfold placeTexts at he
    cases htry : tryOffsets placed it.cx it.baseCy loY hiY dX dY offsets with
    | some cy =>
      rw [htry] at he
      rcases List.mem_cons.mp he with rfl | he2
      · exact tryOffsets_some_shape placed it.cx it.baseCy loY hiY dX dY cy _ htry
      · exact ih _ e he2
    | none =>
      rw [htry] at he
      rcases List.mem_cons.mp he with rfl | he2
      · exact ⟨it.baseCy, rfl⟩
      · exact ih _ e he2

/-- Core invariant of the placement loop: every later-placed mark whose
offset search succeeded is separated from every earlier mark. -/
lemma placeTexts_sep (offsets : List ℚ) (loY hiY dX dY : ℚ) :
    ∀ (toGo : List LayoutItem) (placed : List PlacedDot),
      List.Pairwise (fun x y => x.cx ≤ y.cx) toGo →
      List.Pairwise (fun p q => q.cx ≤ p.cx) placed →
      (∀ it ∈ toGo, ∀ p ∈ placed, p.cx ≤ it.cx) →
      (∀ e ∈ placeTexts offsets loY hiY dX dY toGo placed, e.found = true →
        ∀ p ∈ placed, dX ≤ |e.cx - p.cx| ∨ dY ≤ |e.cy - p.cy|) ∧
      List.Pairwise (fun p q => q.found = true → wellSeparated dX dY p q)
        (placeTexts offsets loY hiY dX dY toGo placed) := by
  intro toGo
  induction toGo with
  | nil =>
    intro placed _ _ _
    exact ⟨fun e he => absurd he (List.not_mem_nil e), List.Pairwise.nil⟩
  | cons it rest ih =>
    intro placed hsorted hmono hcross
    obtain ⟨hit, hrest⟩ := List.pairwise_cons.mp hsorted
    have hcrossHead : ∀ p ∈ placed, p.cx ≤ it.cx := hcross it (List.mem_cons_self _ _)
    have key : ∀ (cy : ℚ) (fnd : Bool),
        (fnd = true → ∀ p ∈ placed, dX ≤ |it.cx - p.cx| ∨ dY ≤ |cy - p.cy|) →
        (∀ e ∈ (⟨it.row, it.cx, cy, fnd⟩ ::
            placeTexts offsets loY hiY dX dY rest (⟨it.cx, cy⟩ :: placed) : List PlacedText),
          e.found = true → ∀ p ∈ placed, dX ≤ |e.cx - p.cx| ∨ dY ≤ |e.cy - p.cy|) ∧
        List.Pairwise (fun p q => q.found = true → wellSeparated dX dY p q)
          (⟨it.row, it.cx, cy, fnd⟩ ::
            placeTexts offsets loY hiY dX dY rest (⟨it.cx, cy⟩ :: placed)) := by
      intro cy fnd hfnd
      have hmono2 : List.Pairwise (fun p q => q.cx ≤ p.cx) (⟨it.cx, cy⟩ :: placed) :=
        List.pairwise_cons.mpr ⟨fun p hp => hcrossHead p hp, hmono⟩
      have hcross2 : ∀ x ∈ rest, ∀ p ∈ (⟨it.cx, cy⟩ :: placed : List PlacedDot),
          p.cx ≤ x.cx := by
        intro x hx p hp
        rcases List.mem_cons.mp hp with rfl | hp2
        · exact hit x hx
        · exact hcross x (List.mem_cons_of_mem _ hx) p hp2
      obtain ⟨ihA, ihB⟩ := ih (⟨it.cx, cy⟩ :: placed) hrest hmono2 hcross2
      constructor
      · intro e he hef p hp
        rcases List.mem_cons.mp he with rfl | he2
        · exact hfnd hef p hp
        · exact ihA e he2 hef p (List.mem_cons_of_mem _ hp)
      · refine List.pairwise_cons.mpr ⟨?_, ihB⟩
        intro e2 he2 hef
        rcases ihA e2 he2 hef ⟨it.cx, cy⟩ (List.mem_cons_self _ _) with h | h
        · exact Or.inl (by rw [abs_sub_comm] at h; exact h)
        · exact Or.inr (by rw [abs_sub_comm] at h; exact h)
    unfold placeTexts
    cases htry : tryOffsets placed it.cx it.baseCy loY hiY dX dY offsets with
    | some cy =>
      refine key cy true (fun _ => ?_)
      exact scanCollide_false_sep it.cx cy dX dY placed hmono
        (tryOffsets_some_scanFalse placed it.cx it.baseCy loY hiY dX dY cy _ htry)
    | none =>
      exact key (max loY (min hiY it.baseCy)) false (fun hf => by cases hf)

/-- C1 (amended): for every pair of instant-marks placed in the same band
in the same frame, either their horizontal distance is at least `minDX` or
their vertical distance is at least `minDY`, UNLESS the later-placed mark
of the pair exhausted all its lane offsets and was placed by the
best-effort clamp (`found = false`). -/
theorem lane_separation_pairwise (band : OutlineRow) (items : List TextRow)
    (zx zy : ℚ → ℚ) (k : ℚ) :
    List.Pairwise
      (fun p q => q.found = true → wellSeparated (minDXof k) (minDYof k) p q)
      (layoutBandTexts band items zx zy k) := by
  have h := placeTexts_sep
    (laneOffsets (maxLanesOf (zy (band.y + band.h) - zy band.y) (laneStepOf k)) (laneStepOf k))
    (zy band.y + TEXT_BASE_R * k) (zy (band.y + band.h) - TEXT_BASE_R * k)
    (minDXof k) (minDYof k)
    (sortByCx (items.map fun d => ⟨d, zx (toAstronomicalQ d.when), zy d.y⟩)) []
    (sorted_sortByCx _) List.Pairwise.nil
    (fun it _ p hp => absurd hp (List.not_mem_nil p))
  exact h.2

/-- Witness for the amended C1 on a concrete two-mark band. -/
theorem lane_separation_pairwise_witness :
    List.Pairwise
      (fun p q => q.found = true → wellSeparated (minDXof 10) (minDYof 10) p q)
      (layoutBandTexts cexBand [mkPlainTextRow "a" 5 5, mkPlainTextRow "b" 5 5] id id 10) :=
  lane_separation_pairwise cexBand [mkPlainTextRow "a" 5 5, mkPlainTextRow "b" 5 5] id id 10

/-- C1 counterexample: two marks at the same year in a 10px band at
`k = 10` end up at the same center (distance 0 in both axes, below the
minima), yet the earlier mark did NOT exhaust its lane offsets — it was
placed on its first lane (`found = true`).  Only the later mark was
best-effort clamped, so "both marks exhausted all lane offsets" is false
for this violating pair. -/
theorem lane_separation_both_exhausted_cex :
    ((layoutBandTexts cexBand [mkPlainTextRow "a" 5 5, mkPlainTextRow "b" 5 5] id id 10).map
        (fun e => (e.cx, e.cy, e.found)) = [(5, 7, true), (5, 7, false)]) ∧
    ¬ (minDXof 10 ≤ |(5:ℚ) - 5|) ∧ ¬ (minDYof 10 ≤ |(7:ℚ) - 7|) := by
  with_unfolding_all decide

/-- C2: the per-band layout is total — every mark gets exactly one final
center y — and that y lies in the padded band extent
`[bandTop + r, bandBottom - r]` whenever the band's pixel height is at
least `2r`, and equals `bandTop + r` otherwise, including in the
best-effort case. -/
theorem layout_total_within_band (band : OutlineRow) (items : List TextRow)
    (zx zy : ℚ → ℚ) (k : ℚ) :
    (layoutBandTexts band items zx zy k).length = items.length ∧
    (2 * (TEXT_BASE_R * k) ≤ zy (band.y + band.h) - zy band.y →
      (layoutBandTexts band items zx zy k).all
        (fun e => decide (zy band.y + TEXT_BASE_R * k ≤ e.cy ∧
          e.cy ≤ zy (band.y + band.h) - TEXT_BASE_R * k)) = true) ∧
    (zy (band.y + band.h) - zy band.y < 2 * (TEXT_BASE_R * k) →
      (layoutBandTexts band items zx zy k).all
        (fun e => decide (e.cy = zy band.y + TEXT_BASE_R * k)) = true) := by
  refine ⟨?_, ?_, ?_⟩
  · unfold layoutBandTexts
    rw [placeTexts_length, length_sortByCx, List.length_map]
  · intro hbig
    apply List.all_eq_true.mpr
    intro e he
    obtain ⟨v, hv⟩ := placeTexts_cy_shape _ _ _ _ _ _ _ e he
    have h1 : zy band.y + TEXT_BASE_R * k ≤ zy (band.y + band.h) - TEXT_BASE_R * k := by
      linarith
    rw [hv]
    exact decide_eq_true ⟨le_max_left _ _, max_le h1 (min_le_left _ _)⟩
  · intro hsmall
    apply List.all_eq_true.mpr
    intro e he
    obtain ⟨v, hv⟩ := placeTexts_cy_shape _ _ _ _ _ _ _ e he
    have h1 : zy (band.y + band.h) - TEXT_BASE_R * k < zy band.y + TEXT_BASE_R * k := by
      linarith
    rw [hv]
    exact decide_eq_true (max_eq_left (le_of_lt (lt_of_le_of_lt (min_le_left _ _) h1)))

/-- Witness for C2: twenty marks at the identical year in a 20px band — all
get a center inside the padded extent, one placement per mark. -/
theorem layout_total_within_band_witness :
    (layoutBandTexts cexBand20 rows20 id id 10).length = rows20.length ∧
    (layoutBandTexts cexBand20 rows20 id id 10).all
      (fun e => decide (id cexBand20.y + TEXT_BASE_R * 10 ≤ e.cy ∧
        e.cy ≤ id (cexBand20.y + cexBand20.h) - TEXT_BASE_R * 10)) = true :=
  ⟨(layout_total_within_band cexBand20 rows20 id id 10).1,
   (layout_total_within_band cexBand20 rows20 id id 10).2.1 (by with_unfolding_all decide)⟩

end Timeline
